import Mathlib

/-!
# GeothermalGame: the simulation core of `geothermal_game_v06.jsx`

A shallow embedding of the game logic of the React component `GeothermalGame`.

Modelling conventions.

* JavaScript numbers are embedded as exact rationals (`ℚ`); counters that the
  source only ever increments from integer literals (year, quarter, ids,
  investigation level) are naturals or integers.  IEEE rounding is not modelled.
* `Math.random()` is an explicit stream `rng : Nat → ℚ`; every operation that
  draws reads the stream from a given position and returns the next position, so
  the number of draws made is observable.
* Each React state variable is a field of `State`.  A callback reads the values
  captured by the render it was created in and queues updates.  Handlers that
  are always invoked from the render they belong to take one state.  The three
  memoised helpers that `advanceQuarter` calls (`checkForEvents`,
  `competitorAction`) or defers (`checkConstructionComplete`) take the captured
  state `snap` and the live state `cur` the queued updates are applied to.
* The log (`gameLog`, `addLog`), `gameStarted`, `selectedSite` and
  `developmentFlow` belong to the presentation layer and are left out.
-/

namespace GeothermalGame

/-! ## Constants (source lines 4-16) -/

def REFERENCE_TEMP : ℚ := 25
def HEAT_CAPACITY : ℚ := 4.18
def HOURS_PER_YEAR : ℚ := 8000
def EXERGY_REFERENCE : ℚ := 100
def BASE_PRICE : ℚ := 80
def DRILLING_FAILURE_RATE : ℚ := 0.05
def MAX_DOUBLETS : Nat := 10
def COMPETITOR_TAKE_CHANCE : ℚ := 0.12
def SECURE_COST : ℚ := 2
def HOLDING_COST : ℚ := 0.3
def CONSTRUCTION_DELAY : Nat := 2

/-- The table `SEASONAL_MULTIPLIER`.  It has entries for the quarters 0..3 only;
for any other key the source reads `undefined`, which the model maps to 0.  All
statements that depend on the multiplier are made for quarters below 4. -/
def SEASONAL_MULTIPLIER : Nat → ℚ
  | 0 => 1.3
  | 1 => 0.7
  | 2 => 0.6
  | 3 => 1.2
  | _ => 0

/-! ## Data model -/

/-- A revealed range `{ min, max }`. -/
structure Range where
  min : ℚ
  max : ℚ
deriving DecidableEq, Repr

/-- One point of a yearly series: `{ year, temp }`, `{ year, cash }` or `{ year, heat }`. -/
structure Entry where
  year : Nat
  value : ℚ
deriving DecidableEq, Repr

/-- A site record as built by `generateSites`.  The nullable fields are options. -/
structure Site where
  id : Int
  name : String
  color : String
  trueTemp : ℚ
  trueCapacity : ℚ
  trueDrillingCost : ℚ
  trueConstructionCost : ℚ
  investigated : Nat
  revealedTemp : Option Range
  revealedDrillingCost : Option Range
  secured : Bool
  developed : Bool
  takenByCompetitor : Bool
  underConstruction : Bool
  constructionCompleteYear : Option Nat
  plannedFlowRate : Option ℚ
deriving DecidableEq, Repr

/-- A doublet record as built by `createInitialDoublet` and `checkConstructionComplete`. -/
structure Doublet where
  id : Nat
  siteId : Int
  siteName : String
  color : String
  initialTemp : ℚ
  currentTemp : ℚ
  flowRate : ℚ
  thermalCapacity : ℚ
  yearBuilt : Nat
  abandoned : Bool
  tempHistory : List Entry
  cashHistory : List Entry
  heatHistory : List Entry
  currentYearCash : ℚ
  currentYearHeat : ℚ
deriving DecidableEq, Repr

/-- The side effect of an event choice (the `effect` closures of `triggerableEvents`). -/
inductive Effect where
  | nothing
  | setRevenueMultiplier (v : ℚ)
  | scaleOperatingCostMultiplier (k : ℚ)
  | addCash (v : ℚ)
deriving DecidableEq, Repr

structure Choice where
  cost : ℚ
  effect : Effect
deriving DecidableEq, Repr

structure GameEvent where
  id : String
  choices : List Choice
  probability : ℚ
deriving DecidableEq, Repr

/-- The React state variables of the component that the game logic reads or writes. -/
structure State where
  year : Nat
  quarter : Nat
  cash : ℚ
  sites : List Site
  doublets : List Doublet
  totalHeatDelivered : ℚ
  gameOver : Bool
  speed : Nat
  nextDoubletId : Nat
  operatingCostMultiplier : ℚ
  revenueMultiplier : ℚ
  pendingEvent : Option GameEvent
  aggregateCashHistory : List Entry
  aggregateHeatHistory : List Entry
deriving DecidableEq, Repr

/-! ## Initial state (source lines 18-77) -/

def siteNames : List String := ["A", "B", "C", "D", "E", "F", "G", "H", "I", "J"]

def siteColors : List String :=
  ["#e74c3c", "#e67e22", "#f1c40f", "#9b59b6", "#3498db",
   "#1abc9c", "#e91e63", "#00bcd4", "#8bc34a", "#ff5722"]

/-- The site built for index `i`: the four `Math.random()` calls of the record
literal are the draws `4 i .. 4 i + 3`, in source order. -/
def mkSite (rng : Nat → ℚ) (i : Nat) (name color : String) : Site :=
  { id := i, name := "Site " ++ name, color := color,
    trueTemp := ⌊80 + rng (4 * i) * 80⌋,
    trueCapacity := 0.5 + rng (4 * i + 1) * 1.5,
    trueDrillingCost := ⌊5 + rng (4 * i + 2) * 8⌋,
    trueConstructionCost := ⌊3 + rng (4 * i + 3) * 5⌋,
    investigated := 0, revealedTemp := none, revealedDrillingCost := none,
    secured := false, developed := false, takenByCompetitor := false,
    underConstruction := false, constructionCompleteYear := none, plannedFlowRate := none }

def generateSites (rng : Nat → ℚ) : List Site :=
  (siteNames.zip siteColors).enum.map fun p => mkSite rng p.1 p.2.1 p.2.2

def createInitialDoublet : Doublet :=
  { id := 0, siteId := -1, siteName := "Legacy", color := "#2ecc71",
    initialTemp := 120, currentTemp := 105, flowRate := 50, thermalCapacity := 1.0,
    yearBuilt := 2020, abandoned := false,
    tempHistory := [⟨2020, 120⟩, ⟨2021, 116⟩, ⟨2022, 112⟩, ⟨2023, 108⟩, ⟨2024, 105⟩],
    cashHistory := [⟨2020, 2.1⟩, ⟨2021, 1.9⟩, ⟨2022, 1.7⟩, ⟨2023, 1.5⟩, ⟨2024, 1.3⟩],
    heatHistory := [⟨2020, 160⟩, ⟨2021, 152⟩, ⟨2022, 144⟩, ⟨2023, 136⟩, ⟨2024, 128⟩],
    currentYearCash := 0, currentYearHeat := 0 }

/-- The values passed to `useState` (and restored by `resetGame`). -/
def initialState (rng : Nat → ℚ) : State :=
  { year := 2025, quarter := 0, cash := 15,
    sites := generateSites rng, doublets := [createInitialDoublet],
    totalHeatDelivered := 0, gameOver := false, speed := 0, nextDoubletId := 1,
    operatingCostMultiplier := 1.0, revenueMultiplier := 1.0, pendingEvent := none,
    aggregateCashHistory := [⟨2020, 2.1⟩, ⟨2021, 1.9⟩, ⟨2022, 1.7⟩, ⟨2023, 1.5⟩, ⟨2024, 1.3⟩],
    aggregateHeatHistory := [⟨2020, 160⟩, ⟨2021, 152⟩, ⟨2022, 144⟩, ⟨2023, 136⟩, ⟨2024, 128⟩] }

/-! ## Economic model (source lines 83-116) -/

def getSeasonalMultiplier (s : State) : ℚ := SEASONAL_MULTIPLIER s.quarter

def getExergyFactor (temp : ℚ) : ℚ :=
  max 0 (min 1 ((temp - REFERENCE_TEMP) / EXERGY_REFERENCE))

def getHeatOutput (d : Doublet) : ℚ :=
  if d.abandoned then 0
  else
    let deltaT := d.currentTemp - REFERENCE_TEMP
    if deltaT ≤ 5 then 0
    else (d.flowRate * HEAT_CAPACITY * deltaT) / 1000

def getQuarterlyRevenue (s : State) (d : Doublet) : ℚ :=
  if d.abandoned then 0
  else
    let heatMW := getHeatOutput d
    let exergyFactor := getExergyFactor d.currentTemp
    let pricePerMWh := BASE_PRICE * exergyFactor * s.revenueMultiplier * getSeasonalMultiplier s
    (heatMW * (HOURS_PER_YEAR / 4) * pricePerMWh) / 1000000

def getQuarterlyOperatingCost (s : State) (d : Doublet) : ℚ :=
  if d.abandoned then 0
  else ((0.3 + (d.flowRate * 0.005)) * s.operatingCostMultiplier) / 4

/-- Models `getNewTemperature`, with `r` the value of its `Math.random()` call (made
only for a doublet that is not abandoned). -/
def getNewTemperature (d : Doublet) (r : ℚ) : ℚ :=
  if d.abandoned then d.currentTemp
  else
    let extractionIntensity := d.flowRate / 50
    let declineRate := ((3 + r * 2) * extractionIntensity / d.thermalCapacity) / 4
    max (REFERENCE_TEMP + 5) (d.currentTemp - declineRate)

def getQuarterlyHeat (d : Doublet) : ℚ :=
  if d.abandoned then 0
  else getHeatOutput d * (HOURS_PER_YEAR / 4) / 1000

/-! ## Events (source lines 118-155) -/

def triggerableEvents : List GameEvent :=
  [ { id := "backlash",
      choices := [⟨2, Effect.nothing⟩, ⟨0, Effect.setRevenueMultiplier 0.8⟩],
      probability := 0.02 },
    { id := "cost_surge",
      choices := [⟨3, Effect.nothing⟩, ⟨0, Effect.scaleOperatingCostMultiplier 1.3⟩],
      probability := 0.025 },
    { id := "subsidy",
      choices := [⟨0, Effect.addCash 5⟩, ⟨0, Effect.nothing⟩],
      probability := 0.015 } ]

/-- The `for ... of` loop of `checkForEvents`: one draw per event, in catalog
order, stopping at the first draw below the event's probability.  Returns the
event that triggered, if any, and the position of the next unused draw. -/
def scanEvents (rng : Nat → ℚ) : Nat → List GameEvent → Option GameEvent × Nat
  | i, [] => (none, i)
  | i, e :: es => if rng i < e.probability then (some e, i + 1) else scanEvents rng (i + 1) es

/-- Models `checkForEvents`: reads the captured `pendingEvent`, queues
`setPendingEvent(event); setSpeed(0)` on the live state. -/
def checkForEvents (snap cur : State) (rng : Nat → ℚ) (i : Nat) : State × Nat :=
  if snap.pendingEvent.isSome then (cur, i)
  else
    match scanEvents rng i triggerableEvents with
    | (some e, j) => ({ cur with pendingEvent := some e, speed := 0 }, j)
    | (none, j) => (cur, j)

def applyEffect (s : State) : Effect → State
  | Effect.nothing => s
  | Effect.setRevenueMultiplier v => { s with revenueMultiplier := v }
  | Effect.scaleOperatingCostMultiplier k =>
      { s with operatingCostMultiplier := s.operatingCostMultiplier * k }
  | Effect.addCash v => { s with cash := s.cash + v }

/-- Models `handleEventChoice`.  With no pending event, or an index outside the
choices, the source throws on the property access before any setter runs, so
the state is unchanged. -/
def handleEventChoice (s : State) (choiceIndex : Nat) : State :=
  match s.pendingEvent with
  | none => s
  | some ev =>
    match ev.choices[choiceIndex]? with
    | none => s
    | some choice =>
      let s1 := if s.cash ≥ choice.cost
        then applyEffect { s with cash := s.cash - choice.cost } choice.effect
        else s
      { s1 with pendingEvent := none }

/-- The button of the event modal for choice `i` (lines 557-568): the modal is
rendered only while an event is pending, the button is disabled when
`cash < choice.cost`, and a click on an enabled button calls `handleEventChoice(i)`.
This is the only call of `handleEventChoice`. -/
def clickEventChoice (s : State) (i : Nat) : State :=
  match s.pendingEvent with
  | none => s
  | some ev =>
    match ev.choices[i]? with
    | none => s
    | some choice => if s.cash < choice.cost then s else handleEventChoice s i

/-! ## Site lifecycle (source lines 157-260) -/

/-- The investigation levels the interface offers: its three buttons call
`investigateSite(selectedSite, 1)`, `(…, 2)` and `(…, 3)`, the keys of
`investigationCosts`. -/
inductive Level where
  | one
  | two
  | three
deriving DecidableEq, Repr

def Level.num : Level → Nat
  | Level.one => 1
  | Level.two => 2
  | Level.three => 3

def investigationCosts : Level → ℚ
  | Level.one => 0.5
  | Level.two => 1.5
  | Level.three => 4.0

/-- The record written to `newSites[siteId]` by lines 164-176. -/
def investigatedSite (site : Site) (level : Level) : Site :=
  let variance : ℚ := 20 - (level.num * 5)
  let site1 : Site :=
    { site with
      investigated := level.num,
      revealedTemp := some (if level.num ≥ 3
        then { min := site.trueTemp, max := site.trueTemp }
        else { min := max 60 (site.trueTemp - variance),
               max := min 180 (site.trueTemp + variance) }) }
  if level.num ≥ 2 then
    let cv : ℚ := 3 - level.num
    { site1 with
      revealedDrillingCost := some (if level.num ≥ 3
        then { min := site.trueDrillingCost, max := site.trueDrillingCost }
        else { min := max 3 (site.trueDrillingCost - cv),
               max := site.trueDrillingCost + cv }) }
  else site1

/-- Models `investigateSite`.  An index outside `sites` makes the source throw before
any setter runs. -/
def investigateSite (s : State) (siteId : Nat) (level : Level) : State :=
  match s.sites[siteId]? with
  | none => s
  | some site =>
    if site.investigated ≥ level.num || site.takenByCompetitor
        || decide (s.cash < investigationCosts level) then s
    else
      { s with sites := s.sites.set siteId (investigatedSite site level),
               cash := s.cash - investigationCosts level }

def secureSite (s : State) (siteId : Nat) : State :=
  match s.sites[siteId]? with
  | none => s
  | some site =>
    if site.secured || site.takenByCompetitor || site.developed
        || decide (s.cash < SECURE_COST) then s
    else
      { s with sites := s.sites.set siteId { site with secured := true },
               cash := s.cash - SECURE_COST }

/-- The `activeCount` of `startDevelopment`. -/
def activeCount (s : State) : Nat :=
  (s.doublets.filter fun d => !d.abandoned).length
    + (s.sites.filter fun x => x.underConstruction).length

/-- Models `startDevelopment`, with `r` the value of its `Math.random()` call (made
only when the guards of lines 195 and 197 pass). -/
def startDevelopment (s : State) (siteId : Nat) (flowRate : ℚ) (r : ℚ) : State :=
  match s.sites[siteId]? with
  | none => s
  | some site =>
    if !site.secured || site.developed || site.underConstruction then s
    else if decide (activeCount s ≥ MAX_DOUBLETS) || decide (s.cash < site.trueDrillingCost) then s
    else if r < DRILLING_FAILURE_RATE then
      { s with cash := s.cash - site.trueDrillingCost,
               sites := s.sites.set siteId { site with developed := true, secured := false } }
    else
      { s with sites := s.sites.set siteId
                 { site with underConstruction := true,
                             constructionCompleteYear := some (s.year + CONSTRUCTION_DELAY),
                             plannedFlowRate := some flowRate },
               cash := s.cash - site.trueDrillingCost }

/-- The condition of line 221, read from the captured state.  A `null`
completion year compares as 0. -/
def completes (snap : State) (site : Site) : Bool :=
  site.underConstruction && decide (site.constructionCompleteYear.getD 0 ≤ snap.year)
    && decide (snap.cash ≥ site.trueConstructionCost)

/-- The doublet pushed at lines 223-231.  A `null` planned flow rate counts as 0. -/
def newDoublet (snap : State) (site : Site) : Doublet :=
  { id := snap.nextDoubletId, siteId := site.id, siteName := site.name, color := site.color,
    initialTemp := site.trueTemp, currentTemp := site.trueTemp,
    flowRate := site.plannedFlowRate.getD 0, thermalCapacity := site.trueCapacity,
    yearBuilt := snap.year, abandoned := false,
    tempHistory := [⟨snap.year, site.trueTemp⟩],
    cashHistory := [], heatHistory := [],
    currentYearCash := 0, currentYearHeat := 0 }

/-- The site written at line 233. -/
def completedSite (site : Site) : Site :=
  { site with underConstruction := false, developed := true, secured := false }

/-- Models `checkConstructionComplete`.  The loop runs over the captured `sites`; its
condition reads the captured `year` and `cash`; every completing site queues
`setCash(c => c - cost)` and `setNextDoubletId(id => id + 1)` on the live state
and pushes a doublet built from the captured `nextDoubletId` and `year`.  If
some site completed, `sites` and `doublets` are replaced by the arrays built
from the captured ones. -/
def checkConstructionComplete (snap cur : State) : State :=
  let done := snap.sites.filter (completes snap)
  if done.isEmpty then cur
  else
    { cur with
      cash := done.foldl (fun c site => c - site.trueConstructionCost) cur.cash,
      nextDoubletId := cur.nextDoubletId + done.length,
      sites := snap.sites.map fun site => if completes snap site then completedSite site else site,
      doublets := snap.doublets ++ done.map (newDoublet snap) }

/-- The condition of line 246. -/
def takeable (site : Site) : Bool :=
  !site.secured && !site.developed && !site.takenByCompetitor && !site.underConstruction

/-- The loop of `competitorAction`: one draw for every takeable site, in order.
Returns the new array, the flag `changed` and the position of the next unused draw. -/
def competitorSites (rng : Nat → ℚ) : Nat → List Site → List Site × Bool × Nat
  | i, [] => ([], false, i)
  | i, site :: rest =>
    if takeable site then
      if rng i < COMPETITOR_TAKE_CHANCE / 4 then
        let out := competitorSites rng (i + 1) rest
        ({ site with takenByCompetitor := true } :: out.1, true, out.2.2)
      else
        let out := competitorSites rng (i + 1) rest
        (site :: out.1, out.2.1, out.2.2)
    else
      let out := competitorSites rng i rest
      (site :: out.1, out.2.1, out.2.2)

/-- Models `competitorAction`: the loop runs over the captured `sites`;
`setSites(newSites)` is queued only if `changed`. -/
def competitorAction (snap cur : State) (rng : Nat → ℚ) (i : Nat) : State × Nat :=
  let out := competitorSites rng i snap.sites
  (if out.2.1 then { cur with sites := out.1 } else cur, out.2.2)

def abandonDoublet (s : State) (id : Nat) : State :=
  { s with doublets := s.doublets.map fun d => if d.id = id then { d with abandoned := true } else d }

/-! ## The quarterly tick (source lines 262-329) -/

/-- Models `xs.slice(-15)`: the last 15 entries. -/
def slice15 (xs : List Entry) : List Entry := xs.drop (xs.length - 15)

/-- The callback of `doublets.map` at lines 270-286, with `r` the draw of
`getNewTemperature` (made only for a doublet that is not abandoned).  The
accumulators are always numbers, so `d.currentYearCash || 0` is `d.currentYearCash`. -/
def tickDoublet (s : State) (d : Doublet) (r : ℚ) : Doublet :=
  if d.abandoned then d
  else
    let heat := getQuarterlyHeat d
    let revenue := getQuarterlyRevenue s d
    let cost := getQuarterlyOperatingCost s d
    let newTemp := getNewTemperature d r
    let netCash := revenue - cost
    { d with currentTemp := newTemp,
             currentYearCash := d.currentYearCash + netCash,
             currentYearHeat := d.currentYearHeat + heat }

/-- The `doublets.map` of lines 270-286: `q` is the running `quarterlyNetCash`,
`i` the position of the next draw.  Abandoned doublets are returned as they are,
without a draw. -/
def tickDoublets (s : State) (rng : Nat → ℚ) : Nat → ℚ → List Doublet → List Doublet × ℚ × Nat
  | i, q, [] => ([], q, i)
  | i, q, d :: ds =>
    if d.abandoned then
      let out := tickDoublets s rng i q ds
      (d :: out.1, out.2)
    else
      let netCash := getQuarterlyRevenue s d - getQuarterlyOperatingCost s d
      let out := tickDoublets s rng (i + 1) (q + netCash) ds
      (tickDoublet s d (rng i) :: out.1, out.2)

/-- The `holdingCosts` of line 288. -/
def holdingCosts (s : State) : ℚ :=
  ((s.sites.filter fun x => x.secured && !x.developed && !x.underConstruction).length : ℚ)
    * (HOLDING_COST / 4)

/-- The callback of `newDoublets.map` at lines 305-314. -/
def archiveDoublet (year : Nat) (d : Doublet) : Doublet :=
  if d.abandoned then d
  else
    { d with
      tempHistory := slice15 (d.tempHistory ++ [⟨year, d.currentTemp⟩]),
      cashHistory := slice15 (d.cashHistory ++ [⟨year, d.currentYearCash⟩]),
      heatHistory := slice15 (d.heatHistory ++ [⟨year, d.currentYearHeat⟩]),
      currentYearCash := 0, currentYearHeat := 0 }

/-- Models `advanceQuarter`, called from the render whose state is `s`, with its draws
read from position 0 of `rng`.  Returns the state after the queued updates and
the number of draws made.  Every read (`gameOver`, `pendingEvent`, `doublets`,
`cash`, `quarter`, `year`, `sites`) is a read of the captured `s`; in particular
the test of line 265 reads the same `pendingEvent` as the test of line 263.
The call `setTimeout(() => checkConstructionComplete(), 0)` of line 319 is not
part of this function: see `tick`. -/
def advanceQuarter (s : State) (rng : Nat → ℚ) : State × Nat :=
  if s.gameOver || s.pendingEvent.isSome then (s, 0)
  else
    let ev := checkForEvents s s rng 0
    if s.pendingEvent.isSome then ev
    else
      let comp := competitorAction s ev.1 rng ev.2
      let upd := tickDoublets s rng comp.2 0 s.doublets
      let newDoublets := upd.1
      let holding := holdingCosts s
      let quarterlyNetCash := upd.2.1 - holding
      let newCash := s.cash + quarterlyNetCash
      let quarterlyHeat :=
        newDoublets.foldl (fun sum d => sum + (if d.abandoned then 0 else getQuarterlyHeat d)) 0
      let c3 : State :=
        { comp.1 with doublets := newDoublets, cash := newCash,
                      totalHeatDelivered := comp.1.totalHeatDelivered + quarterlyHeat }
      let c4 : State :=
        if s.quarter = 3 then
          let totalYearCash :=
            newDoublets.foldl (fun sum d => sum + d.currentYearCash) 0 - (holding * 4)
          let totalYearHeat := newDoublets.foldl (fun sum d => sum + d.currentYearHeat) 0
          { c3 with
            aggregateCashHistory := slice15 (c3.aggregateCashHistory ++ [⟨s.year, totalYearCash⟩]),
            aggregateHeatHistory := slice15 (c3.aggregateHeatHistory ++ [⟨s.year, totalYearHeat⟩]),
            doublets := newDoublets.map (archiveDoublet s.year),
            year := c3.year + 1,
            quarter := 0 }
        else { c3 with quarter := c3.quarter + 1 }
      let c5 : State :=
        if newCash < -10 then { c4 with gameOver := true, speed := 0 } else c4
      let active := newDoublets.filter fun d => !d.abandoned && decide (getHeatOutput d > 0)
      let available := s.sites.filter fun x => !x.developed && !x.takenByCompetitor
      let c6 : State :=
        if active.length = 0 ∧ available.length = 0
        then { c5 with gameOver := true, speed := 0 } else c5
      (c6, upd.2.2)

/-- The tick together with the pass it defers: `advanceQuarter`, followed, when the
tick ran in the fourth quarter, by the `checkConstructionComplete` deferred at
line 319, which still holds the values captured before the tick.  The passes that
the effect of lines 337-339 makes on the fresh state are not part of this
function; `firing` below has them too. -/
def tick (s : State) (rng : Nat → ℚ) : State :=
  let s1 := (advanceQuarter s rng).1
  if !(s.gameOver || s.pendingEvent.isSome) && decide (s.quarter = 3)
  then checkConstructionComplete s s1 else s1

/-- The loop of the effect of lines 337-339, started in state `t`: when
`quarter === 0 && year > 2025` the effect calls `checkConstructionComplete` from
the render of `t`; if a site completed, the setters replace `sites`, `doublets`,
`cash` and `nextDoubletId`, the component renders again, `checkConstructionComplete`
is a new callback and the effect runs once more; a pass in which no site completes
calls no setter and the loop rests.  `n` bounds the number of passes. -/
def effectLoop : Nat → State → State
  | 0, t => t
  | n + 1, t =>
    if t.quarter = 0 ∧ t.year > 2025 then
      if (t.sites.filter (completes t)).isEmpty then t
      else effectLoop n (checkConstructionComplete t t)
    else t

/-- The effect of lines 337-339 run to rest from state `t`.  Every pass that
does not rest completes a site under construction, so one pass more than there
are sites is enough (`effectPass_rests`). -/
def effectPass (t : State) : State := effectLoop (t.sites.length + 1) t

/-- One whole firing of the timer as the component runs it: `advanceQuarter`;
then the effect of lines 337-339 on the state the tick produced; then, if the tick
ran in the fourth quarter, the `checkConstructionComplete` deferred at line 319,
which holds the values captured before the tick; then the effect again. -/
def firing (s : State) (rng : Nat → ℚ) : State :=
  let s1 := (advanceQuarter s rng).1
  if s.gameOver || s.pendingEvent.isSome then s1
  else
    let s2 := effectPass s1
    if s.quarter = 3 then effectPass (checkConstructionComplete s s2) else s2

/-! ## Reachable states -/

/-- The states the game can be in.  `construction` covers both ways the source
runs `checkConstructionComplete`: from the effect of lines 337-339 (captured
and live state equal) and deferred from a tick (captured state older than the
live one); it is stated for any pair of reachable states, which includes both. -/
inductive Reachable : State → Prop
  | init (rng : Nat → ℚ) : Reachable (initialState rng)
  | investigate {s : State} (siteId : Nat) (level : Level) :
      Reachable s → Reachable (investigateSite s siteId level)
  | secure {s : State} (siteId : Nat) : Reachable s → Reachable (secureSite s siteId)
  | develop {s : State} (siteId : Nat) (flowRate r : ℚ) :
      Reachable s → Reachable (startDevelopment s siteId flowRate r)
  | abandon {s : State} (id : Nat) : Reachable s → Reachable (abandonDoublet s id)
  | choose {s : State} (choiceIndex : Nat) : Reachable s → Reachable (handleEventChoice s choiceIndex)
  | competitor {s : State} (rng : Nat → ℚ) (i : Nat) :
      Reachable s → Reachable (competitorAction s s rng i).1
  | advance {s : State} (rng : Nat → ℚ) : Reachable s → Reachable (advanceQuarter s rng).1
  | construction {snap cur : State} :
      Reachable snap → Reachable cur → Reachable (checkConstructionComplete snap cur)

/-! ## Auxiliary definitions used in the statements -/

/-- The position of the first temperature draw of a tick: after the event scan
and the competitor draws. -/
def tempDrawStart (s : State) (rng : Nat → ℚ) : Nat :=
  (competitorAction s (checkForEvents s s rng 0).1 rng (checkForEvents s s rng 0).2).2

/-- What one tick may do to a doublet's temperature: the abandoned flag is kept, and a
doublet in operation at or above the floor, with a non-negative flow rate and a
positive thermal capacity, ends between the floor (30) and its old temperature. -/
def TempStep (d d1 : Doublet) : Prop :=
  d1.abandoned = d.abandoned ∧
    (d.abandoned = false → REFERENCE_TEMP + 5 ≤ d.currentTemp → 0 ≤ d.flowRate →
      0 < d.thermalCapacity → 30 ≤ d1.currentTemp ∧ d1.currentTemp ≤ d.currentTemp)

/-- The heat output in the words of the specification (§4.2): 0 if
`currentTemp − 25 ≤ 5`, otherwise `flowRate × 4.18 × (currentTemp − 25) / 1000`. -/
def claimHeatOutput (d : Doublet) : ℚ :=
  if d.currentTemp - 25 ≤ 5 then 0 else d.flowRate * 4.18 * (d.currentTemp - 25) / 1000

/-- The quarterly revenue in the words of the specification: heat output ×
(8000/4) × price / 1000000, with price = 80 × clamp((currentTemp − 25)/100, 0, 1)
× revenueMultiplier × SEASONAL_MULTIPLIER[quarter]. -/
def claimRevenue (s : State) (d : Doublet) : ℚ :=
  claimHeatOutput d * (8000 / 4)
    * (80 * max 0 (min 1 ((d.currentTemp - 25) / 100)) * s.revenueMultiplier
        * SEASONAL_MULTIPLIER s.quarter) / 1000000

/-- The quarterly operating cost in the words of the specification:
`(0.3 + 0.005 × flowRate) × operatingCostMultiplier / 4`. -/
def claimCost (s : State) (d : Doublet) : ℚ :=
  (0.3 + 0.005 * d.flowRate) * s.operatingCostMultiplier / 4

/-- A stream of draws whose first value (the event scan's draw for `backlash`)
is 0 and whose later values are all 1/2. -/
def eventRng : Nat → ℚ := fun n => if n = 0 then 0 else 1 / 2

/-- The number of status flags of a site that are set. -/
def flagCount (x : Site) : Nat :=
  [x.secured, x.underConstruction, x.developed, x.takenByCompetitor].count true

/-- The status invariant the code maintains: at most one of `secured`,
`developed`, `takenByCompetitor` is set, and `underConstruction` is set only on a
site that is (still) `secured`. -/
def StatusOk (x : Site) : Prop :=
  [x.secured, x.developed, x.takenByCompetitor].count true ≤ 1 ∧
    (x.underConstruction = true → x.secured = true)

/-- The state after securing site 0 of the initial state (all generation draws
0) and starting its development with flow 50 and a drilling draw of 1/2. -/
def drillingState : State :=
  startDevelopment (secureSite (initialState fun _ => 0) 0) 0 50 (1 / 2)

/-- The record written to `newSites[siteId]` at line 203 when drilling fails. -/
def failedSite (site : Site) : Site := { site with developed := true, secured := false }

/-- The initial state (all generation draws 0) after securing site 0. -/
def securedState : State := secureSite (initialState fun _ => 0) 0

/-- A state at the start of 2027 with cash 5 in which sites 0 and 1 (construction
cost 3 each) are under construction and due in 2027: the initial state (all
generation draws 0) with those two sites as `startDevelopment` leaves them. -/
def twoDueState : State :=
  { initialState (fun _ => 0) with
    year := 2027, cash := 5,
    sites := (generateSites fun _ => 0).map fun x =>
      if x.id < 2 then
        { x with secured := true, underConstruction := true,
                 constructionCompleteYear := some 2027, plannedFlowRate := some 50 }
      else x }

/-- The range `r` contains the value `v`. -/
def Range.Contains (r : Range) (v : ℚ) : Prop := r.min ≤ v ∧ v ≤ r.max

/-- The array `newDoublets` of a tick from `s` (lines 270-286). -/
def newDoublets (s : State) (rng : Nat → ℚ) : List Doublet :=
  (tickDoublets s rng (tempDrawStart s rng) 0 s.doublets).1

/-- The value `newCash` of a tick from `s` (line 291). -/
def newCash (s : State) (rng : Nat → ℚ) : ℚ :=
  s.cash + ((tickDoublets s rng (tempDrawStart s rng) 0 s.doublets).2.1 - holdingCosts s)

/-- The value `quarterlyHeat` of a tick from `s` (line 292). -/
def quarterlyHeat (s : State) (rng : Nat → ℚ) : ℚ :=
  (newDoublets s rng).foldl (fun sum d => sum + (if d.abandoned then 0 else getQuarterlyHeat d)) 0

/-- The exhaustion test of lines 326-328 of a tick from `s`: `active` is taken
from `newDoublets`, `available` from the captured `sites`. -/
def exhausted (s : State) (rng : Nat → ℚ) : Bool :=
  decide (((newDoublets s rng).filter
      fun d => !d.abandoned && decide (getHeatOutput d > 0)).length = 0 ∧
    (s.sites.filter fun x => !x.developed && !x.takenByCompetitor).length = 0)

/-- The condition of the `holdingCosts` filter (line 288). -/
def chargeable (x : Site) : Bool := x.secured && !x.developed && !x.underConstruction

/-- The share of one site in the holding costs of a tick. -/
def siteHoldingCharge (x : Site) : ℚ := if chargeable x then HOLDING_COST / 4 else 0

/-- A state in which the legacy doublet is abandoned and every site but site 0
has been taken by a competitor; site 0 is untouched. -/
def lastSiteState : State :=
  { initialState (fun _ => 0) with
    doublets := [{ createInitialDoublet with abandoned := true }],
    sites := (generateSites fun _ => 0).map fun x =>
      if x.id = 0 then x else { x with takenByCompetitor := true } }

/-- A stream of draws whose value at position 3 (the competitor draw for the
first takeable site after an event scan of three draws) is 0 and whose other
values are all 1/2. -/
def takeRng : Nat → ℚ := fun n => if n = 3 then 0 else 1 / 2

/-- The initial state with cash 1 and the first catalog event (`backlash`, whose
first choice costs 2) pending. -/
def poorEventState : State :=
  { initialState (fun _ => 0) with cash := 1, pendingEvent := triggerableEvents.head? }

/-- A state in the fourth quarter of 2027 with cash 5 in which site 0 (construction
cost 3) is under construction and due since 2027, and the other sites are
untouched. -/
def yearEndState : State :=
  { initialState (fun _ => 0) with
    year := 2027, quarter := 3, cash := 5,
    sites := (generateSites fun _ => 0).map fun x =>
      if x.id = 0 then
        { x with secured := true, underConstruction := true,
                 constructionCompleteYear := some 2027, plannedFlowRate := some 50 }
      else x }

/-- Every doublet that is abandoned in `s` is, at the same position and with the
same record, in `t`. -/
def KeepsAbandoned (s t : State) : Prop :=
  ∀ (k : Nat) (d : Doublet), s.doublets[k]? = some d → d.abandoned = true →
    t.doublets[k]? = some d

/-- What a fourth-quarter tick of year `year` does to a doublet in operation
(`d` before, `d1` after): each history is the last 15 entries of the old history
followed by the entry of the closing year, and the yearly accumulators are 0. -/
def Archived (s : State) (d d1 : Doublet) : Prop :=
  d1.tempHistory = slice15 (d.tempHistory ++ [⟨s.year, d1.currentTemp⟩]) ∧
  d1.cashHistory = slice15 (d.cashHistory ++
    [⟨s.year, d.currentYearCash + (getQuarterlyRevenue s d - getQuarterlyOperatingCost s d)⟩]) ∧
  d1.heatHistory = slice15 (d.heatHistory ++
    [⟨s.year, d.currentYearHeat + getQuarterlyHeat d⟩]) ∧
  d1.currentYearCash = 0 ∧ d1.currentYearHeat = 0

/-- The three histories of two doublets are the same. -/
def SameHistories (d d1 : Doublet) : Prop :=
  d1.tempHistory = d.tempHistory ∧ d1.cashHistory = d.cashHistory ∧
    d1.heatHistory = d.heatHistory

/-- The bounds of C17 on a state: the quarter is 0..3 and every history has at
most 15 entries. -/
def HistoryBounded (s : State) : Prop :=
  s.quarter < 4 ∧ s.aggregateCashHistory.length ≤ 15 ∧ s.aggregateHeatHistory.length ≤ 15 ∧
    ∀ d ∈ s.doublets, d.tempHistory.length ≤ 15 ∧ d.cashHistory.length ≤ 15 ∧
      d.heatHistory.length ≤ 15

/-- The state `yearEndState` with yearly accumulators 7 (cash) and 99 (heat) on the
legacy doublet. -/
def archiveLostState : State :=
  { yearEndState with
    doublets := [{ createInitialDoublet with currentYearCash := 7, currentYearHeat := 99 }] }

/-- The figures of a doublet that the year-end archive changes: temperature, the
lengths of the three histories, and the two yearly accumulators. -/
def archiveFigures (d : Doublet) : ℚ × Nat × Nat × Nat × ℚ × ℚ :=
  (d.currentTemp, d.tempHistory.length, d.cashHistory.length, d.heatHistory.length,
    d.currentYearCash, d.currentYearHeat)

/-! # Theorems -/

/-! ## The tick: projections -/

theorem advanceQuarter_blocked (s : State) (rng : Nat → ℚ)
    (h : (s.gameOver || s.pendingEvent.isSome) = true) : advanceQuarter s rng = (s, 0) := by
  simp only [advanceQuarter, h, if_true]

theorem not_blocked_iff (s : State) :
    (s.gameOver || s.pendingEvent.isSome) = false ↔ s.gameOver = false ∧ s.pendingEvent = none := by
  cases s.gameOver <;> cases s.pendingEvent <;> simp

theorem advanceQuarter_doublets (s : State) (rng : Nat → ℚ)
    (hg : s.gameOver = false) (hp : s.pendingEvent = none) :
    (advanceQuarter s rng).1.doublets =
      if s.quarter = 3
      then (tickDoublets s rng (tempDrawStart s rng) 0 s.doublets).1.map (archiveDoublet s.year)
      else (tickDoublets s rng (tempDrawStart s rng) 0 s.doublets).1 := by
  simp only [advanceQuarter, hg, hp, tempDrawStart, Option.isSome_none, Bool.or_self,
    Bool.false_eq_true, if_false]
  split_ifs <;> rfl

theorem advanceQuarter_cash (s : State) (rng : Nat → ℚ)
    (hg : s.gameOver = false) (hp : s.pendingEvent = none) :
    (advanceQuarter s rng).1.cash =
      s.cash + ((tickDoublets s rng (tempDrawStart s rng) 0 s.doublets).2.1 - holdingCosts s) := by
  simp only [advanceQuarter, hg, hp, tempDrawStart, Option.isSome_none, Bool.or_self,
    Bool.false_eq_true, if_false]
  split_ifs <;> rfl


theorem getNewTemperature_between (d : Doublet) (r : ℚ)
    (hT : REFERENCE_TEMP + 5 ≤ d.currentTemp) (hf : 0 ≤ d.flowRate)
    (hc : 0 < d.thermalCapacity) (hr : 0 ≤ r) :
    30 ≤ getNewTemperature d r ∧ getNewTemperature d r ≤ d.currentTemp := by
  unfold getNewTemperature
  split_ifs with hab
  · refine ⟨?_, le_refl _⟩
    unfold REFERENCE_TEMP at hT; linarith
  · have hdec : 0 ≤ ((3 + r * 2) * (d.flowRate / 50) / d.thermalCapacity) / 4 := by positivity
    unfold REFERENCE_TEMP at hT ⊢
    constructor
    · exact le_trans (by norm_num) (le_max_left _ _)
    · apply max_le
      · linarith
      · linarith

theorem tickDoublet_tempStep (s : State) (d : Doublet) (r : ℚ) (hr : 0 ≤ r) :
    TempStep d (tickDoublet s d r) := by
  unfold tickDoublet
  split_ifs with hab
  · exact ⟨rfl, fun h => by simp [hab] at h⟩
  · exact ⟨rfl, fun _ hT hf hc => getNewTemperature_between d r hT hf hc hr⟩

theorem tickDoublets_forall₂ (s : State) (rng : Nat → ℚ) (R : Doublet → Doublet → Prop)
    (hR : ∀ d r, (∃ n, r = rng n) → R d (tickDoublet s d r)) (ds : List Doublet) :
    ∀ i q, List.Forall₂ R ds (tickDoublets s rng i q ds).1 := by
  induction ds with
  | nil => intro i q; simp [tickDoublets]
  | cons d ds ih =>
    intro i q
    unfold tickDoublets
    split_ifs with hab
    · refine List.Forall₂.cons ?_ (ih _ _)
      have := hR d (rng 0) ⟨0, rfl⟩
      simpa [tickDoublet, hab] using this
    · exact List.Forall₂.cons (hR d (rng i) ⟨i, rfl⟩) (ih _ _)

theorem archiveDoublet_currentTemp (y : Nat) (d : Doublet) :
    (archiveDoublet y d).currentTemp = d.currentTemp ∧
      (archiveDoublet y d).abandoned = d.abandoned := by
  unfold archiveDoublet; split_ifs <;> simp

/-- C1. For a non-abandoned doublet with `currentTemp ≥ REFERENCE_TEMP + 5 = 30`,
`flowRate ≥ 0`, `thermalCapacity > 0` and a draw in `[0,1)`, `getNewTemperature`
returns a temperature between 30 and `currentTemp`; and the doublets produced by
`advanceQuarter` are, position by position, related to the old ones by `TempStep`
(same abandoned flag, new temperature between 30 and the old one). -/
theorem advanceQuarter_temperature (s : State) (rng : Nat → ℚ)
    (hrng : ∀ n, 0 ≤ rng n ∧ rng n < 1) :
    (∀ d r, d.abandoned = false → REFERENCE_TEMP + 5 ≤ d.currentTemp → 0 ≤ d.flowRate →
      0 < d.thermalCapacity → 0 ≤ r → r < 1 →
      30 ≤ getNewTemperature d r ∧ getNewTemperature d r ≤ d.currentTemp) ∧
    List.Forall₂ TempStep s.doublets (advanceQuarter s rng).1.doublets := by
  refine ⟨fun d r _ hT hf hc hr _ => getNewTemperature_between d r hT hf hc hr, ?_⟩
  by_cases hb : (s.gameOver || s.pendingEvent.isSome) = true
  · rw [advanceQuarter_blocked s rng hb]
    refine List.forall₂_same.2 fun d _ => ⟨rfl, fun _ hT _ _ => ⟨?_, le_refl _⟩⟩
    unfold REFERENCE_TEMP at hT; linarith
  · have hb1 := (not_blocked_iff s).1 (by simpa using hb)
    rw [advanceQuarter_doublets s rng hb1.1 hb1.2]
    have key := tickDoublets_forall₂ s rng TempStep
      (fun d r ⟨n, hn⟩ => tickDoublet_tempStep s d r (hn ▸ (hrng n).1)) s.doublets
      (tempDrawStart s rng) 0
    split_ifs
    · rw [List.forall₂_map_right_iff]
      refine key.imp fun d d1 h => ?_
      obtain ⟨h1, h2⟩ := archiveDoublet_currentTemp s.year d1
      exact ⟨h2.trans h.1, fun a b c e => h1 ▸ h.2 a b c e⟩
    · exact key


/-- Witness for C1: the initial state with every draw equal to 1/2. -/
theorem advanceQuarter_temperature_witness :
    (∀ n : Nat, 0 ≤ (fun _ : Nat => (1 / 2 : ℚ)) n ∧ (fun _ : Nat => (1 / 2 : ℚ)) n < 1) ∧
    (30 ≤ getNewTemperature createInitialDoublet (1 / 2) ∧
      getNewTemperature createInitialDoublet (1 / 2) ≤ createInitialDoublet.currentTemp) ∧
    List.Forall₂ TempStep (initialState fun _ => 1 / 2).doublets
      (advanceQuarter (initialState fun _ => 1 / 2) fun _ => 1 / 2).1.doublets :=
  ⟨fun _ => by norm_num,
   (advanceQuarter_temperature (initialState fun _ => 1 / 2) (fun _ => 1 / 2)
      (fun _ => by norm_num)).1 createInitialDoublet (1 / 2) rfl
      (by norm_num [createInitialDoublet, REFERENCE_TEMP])
      (by norm_num [createInitialDoublet]) (by norm_num [createInitialDoublet])
      (by norm_num) (by norm_num),
   (advanceQuarter_temperature (initialState fun _ => 1 / 2) (fun _ => 1 / 2)
      (fun _ => by norm_num)).2⟩

/-! ## The tick: fields, draws -/

theorem checkForEvents_fields (snap cur : State) (rng : Nat → ℚ) (i : Nat) :
    let r := (checkForEvents snap cur rng i).1
    r.year = cur.year ∧ r.quarter = cur.quarter ∧ r.cash = cur.cash ∧ r.sites = cur.sites ∧
      r.doublets = cur.doublets ∧ r.totalHeatDelivered = cur.totalHeatDelivered ∧
      r.gameOver = cur.gameOver ∧ r.nextDoubletId = cur.nextDoubletId ∧
      r.operatingCostMultiplier = cur.operatingCostMultiplier ∧
      r.revenueMultiplier = cur.revenueMultiplier ∧
      r.aggregateCashHistory = cur.aggregateCashHistory ∧
      r.aggregateHeatHistory = cur.aggregateHeatHistory := by
  simp only [checkForEvents]
  split_ifs
  · simp
  · split <;> simp

theorem competitorAction_fields (snap cur : State) (rng : Nat → ℚ) (i : Nat) :
    let r := (competitorAction snap cur rng i).1
    r.year = cur.year ∧ r.quarter = cur.quarter ∧ r.cash = cur.cash ∧
      r.doublets = cur.doublets ∧ r.totalHeatDelivered = cur.totalHeatDelivered ∧
      r.gameOver = cur.gameOver ∧ r.speed = cur.speed ∧ r.nextDoubletId = cur.nextDoubletId ∧
      r.operatingCostMultiplier = cur.operatingCostMultiplier ∧
      r.revenueMultiplier = cur.revenueMultiplier ∧ r.pendingEvent = cur.pendingEvent ∧
      r.aggregateCashHistory = cur.aggregateCashHistory ∧
      r.aggregateHeatHistory = cur.aggregateHeatHistory := by
  simp only [competitorAction]
  split_ifs <;> simp

theorem advanceQuarter_pendingEvent (s : State) (rng : Nat → ℚ)
    (hg : s.gameOver = false) (hp : s.pendingEvent = none) :
    (advanceQuarter s rng).1.pendingEvent = (scanEvents rng 0 triggerableEvents).1 := by
  have h1 := (competitorAction_fields s (checkForEvents s s rng 0).1 rng
    (checkForEvents s s rng 0).2).2.2.2.2.2.2.2.2.2.2.1
  have h2 : (checkForEvents s s rng 0).1.pendingEvent = (scanEvents rng 0 triggerableEvents).1 := by
    simp only [checkForEvents, hp, Option.isSome_none, Bool.false_eq_true, if_false]
    split <;> rename_i h <;> simp [h, hp]
  simp only [advanceQuarter, hg, hp, Option.isSome_none, Bool.or_self,
    Bool.false_eq_true, if_false]
  split_ifs <;> exact h1.trans h2

theorem advanceQuarter_quarter (s : State) (rng : Nat → ℚ)
    (hg : s.gameOver = false) (hp : s.pendingEvent = none) :
    (advanceQuarter s rng).1.quarter = (if s.quarter = 3 then 0 else s.quarter + 1) ∧
      (advanceQuarter s rng).1.year = (if s.quarter = 3 then s.year + 1 else s.year) := by
  have h1 := competitorAction_fields s (checkForEvents s s rng 0).1 rng (checkForEvents s s rng 0).2
  have h2 := checkForEvents_fields s s rng 0
  simp only at h1 h2
  simp only [advanceQuarter, hg, hp, Option.isSome_none, Bool.or_self,
    Bool.false_eq_true, if_false]
  split_ifs <;> simp [h1.1, h1.2.1, h2.1, h2.2.1]

theorem advanceQuarter_draws (s : State) (rng : Nat → ℚ)
    (hg : s.gameOver = false) (hp : s.pendingEvent = none) :
    (advanceQuarter s rng).2 = (tickDoublets s rng (tempDrawStart s rng) 0 s.doublets).2.2 := by
  simp only [advanceQuarter, hg, hp, Option.isSome_none, Bool.or_self,
    Bool.false_eq_true, if_false, tempDrawStart]

/-! ## Cash of a tick (C2) -/

theorem revenue_eq_claim (s : State) (d : Doublet) (h : d.abandoned = false) :
    getQuarterlyRevenue s d = claimRevenue s d := by
  simp only [getQuarterlyRevenue, getHeatOutput, getExergyFactor, getSeasonalMultiplier,
    claimRevenue, claimHeatOutput, h, REFERENCE_TEMP, HEAT_CAPACITY, HOURS_PER_YEAR,
    EXERGY_REFERENCE, BASE_PRICE, Bool.false_eq_true, if_false]

theorem cost_eq_claim (s : State) (d : Doublet) (h : d.abandoned = false) :
    getQuarterlyOperatingCost s d = claimCost s d := by
  simp only [getQuarterlyOperatingCost, claimCost, h, Bool.false_eq_true, if_false]
  ring

theorem tickDoublets_netCash (s : State) (rng : Nat → ℚ) (ds : List Doublet) :
    ∀ i q, (tickDoublets s rng i q ds).2.1 =
      q + ((ds.filter fun d => !d.abandoned).map fun d => claimRevenue s d - claimCost s d).sum := by
  induction ds with
  | nil => intro i q; simp [tickDoublets]
  | cons d ds ih =>
    intro i q
    unfold tickDoublets
    cases hab : d.abandoned
    · simp only [Bool.false_eq_true, if_false, ih, List.filter_cons, hab, Bool.not_false, if_true,
        List.map_cons, List.sum_cons, revenue_eq_claim s d hab, cost_eq_claim s d hab]
      ring
    · simp only [if_true, ih, List.filter_cons, hab, Bool.not_true, Bool.false_eq_true, if_false]

theorem generateSites_flags (g : Nat → ℚ) (x : Site) (hx : x ∈ generateSites g) :
    x.secured = false ∧ x.developed = false ∧ x.takenByCompetitor = false ∧
      x.underConstruction = false := by
  simp only [generateSites, List.mem_map] at hx
  obtain ⟨p, -, rfl⟩ := hx
  simp [mkSite]

theorem holdingCosts_initial (g : Nat → ℚ) : holdingCosts (initialState g) = 0 := by
  have : ((initialState g).sites.filter fun x => x.secured && !x.developed && !x.underConstruction)
      = [] := by
    rw [List.filter_eq_nil_iff]
    intro x hx
    simp [(generateSites_flags g x hx).1]
  simp [holdingCosts, this]

/-- C2. Whenever a tick executes (game not over, no event pending), `advanceQuarter`
sets cash to `cash + Σ (revenue − cost) − holdingCosts`, the sum over the doublets
that are not abandoned, with revenue and cost as the claim words them
(`claimRevenue`, `claimCost`).  For the initial state the legacy doublet's revenue
is 2.782208, its cost 0.1375, there is no holding cost, and the cash delta is
2.644708, whatever the sites generated and whatever the draws of the tick. -/
theorem advanceQuarter_cash_formula :
    (∀ (s : State) (rng : Nat → ℚ), s.gameOver = false → s.pendingEvent = none →
      (advanceQuarter s rng).1.cash =
        s.cash + ((s.doublets.filter fun d => !d.abandoned).map
          fun d => claimRevenue s d - claimCost s d).sum - holdingCosts s) ∧
    (∀ g rng : Nat → ℚ,
      claimRevenue (initialState g) createInitialDoublet = 2.782208 ∧
      claimCost (initialState g) createInitialDoublet = 0.1375 ∧
      holdingCosts (initialState g) = 0 ∧
      (advanceQuarter (initialState g) rng).1.cash - (initialState g).cash = 2.644708) := by
  have main : ∀ (s : State) (rng : Nat → ℚ), s.gameOver = false → s.pendingEvent = none →
      (advanceQuarter s rng).1.cash =
        s.cash + ((s.doublets.filter fun d => !d.abandoned).map
          fun d => claimRevenue s d - claimCost s d).sum - holdingCosts s := by
    intro s rng hg hp
    rw [advanceQuarter_cash s rng hg hp, tickDoublets_netCash]
    ring
  refine ⟨main, fun g rng => ?_⟩
  have hr : claimRevenue (initialState g) createInitialDoublet = 2.782208 := by
    norm_num [claimRevenue, claimHeatOutput, initialState, createInitialDoublet,
      SEASONAL_MULTIPLIER]
  have hc : claimCost (initialState g) createInitialDoublet = 0.1375 := by
    norm_num [claimCost, initialState, createInitialDoublet]
  refine ⟨hr, hc, holdingCosts_initial g, ?_⟩
  rw [main _ rng rfl rfl, holdingCosts_initial]
  have hd : (initialState g).doublets = [createInitialDoublet] := rfl
  have ha : createInitialDoublet.abandoned = false := rfl
  simp only [hd, List.filter_cons, ha, Bool.not_false, if_true, List.filter_nil, List.map_cons,
    List.map_nil, List.sum_cons, List.sum_nil, hr, hc]
  norm_num

/-- Witness for C2: the general formula at the initial state with every tick draw 1/2. -/
theorem advanceQuarter_cash_formula_witness :
    (advanceQuarter (initialState fun _ => 0) fun _ => 1 / 2).1.cash =
      (initialState fun _ => 0).cash
        + (((initialState fun _ => 0).doublets.filter fun d => !d.abandoned).map
            fun d => claimRevenue (initialState fun _ => 0) d
              - claimCost (initialState fun _ => 0) d).sum
        - holdingCosts (initialState fun _ => 0) :=
  advanceQuarter_cash_formula.1 (initialState fun _ => 0) (fun _ => 1 / 2) rfl rfl

/-! ## Blocked ticks (C3) -/

/-- C3. `advanceQuarter` called with `gameOver` set or an event pending returns
the state as it was (every field: cash, sites, doublets, year, quarter,
cumulative heat, histories, pending event) and makes no draw: neither the event
scan nor the competitor loop runs. -/
theorem advanceQuarter_noop_when_blocked (s : State) (rng : Nat → ℚ)
    (h : s.gameOver = true ∨ s.pendingEvent ≠ none) : advanceQuarter s rng = (s, 0) := by
  apply advanceQuarter_blocked
  rcases h with h | h
  · simp [h]
  · cases hp : s.pendingEvent with
    | none => exact absurd hp h
    | some e => simp

/-- Witness for C3: the initial state with `gameOver` set, and the initial state
with the first catalog event pending. -/
theorem advanceQuarter_noop_when_blocked_witness :
    advanceQuarter { initialState (fun _ => 0) with gameOver := true } (fun _ => 0)
      = ({ initialState (fun _ => 0) with gameOver := true }, 0) ∧
    advanceQuarter { initialState (fun _ => 0) with pendingEvent := triggerableEvents.head? }
        (fun _ => 0)
      = ({ initialState (fun _ => 0) with pendingEvent := triggerableEvents.head? }, 0) :=
  ⟨advanceQuarter_noop_when_blocked _ _ (Or.inl rfl),
   advanceQuarter_noop_when_blocked _ _ (Or.inr (by simp [triggerableEvents]))⟩

/-! ## A tick whose event scan triggers (C4) -/

theorem competitorSites_draws (rng : Nat → ℚ) (sites : List Site) :
    ∀ i, (competitorSites rng i sites).2.2 = i + (sites.filter takeable).length := by
  induction sites with
  | nil => intro i; simp [competitorSites]
  | cons x xs ih =>
    intro i
    unfold competitorSites
    split_ifs with h1 h2
    · simp only [ih, List.filter_cons, h1, if_true, List.length_cons]; omega
    · simp only [ih, List.filter_cons, h1, if_true, List.length_cons]; omega
    · simp only [ih, List.filter_cons, h1, Bool.false_eq_true, if_false]

theorem tickDoublets_draws (s : State) (rng : Nat → ℚ) (ds : List Doublet) :
    ∀ i q, (tickDoublets s rng i q ds).2.2 = i + (ds.filter fun d => !d.abandoned).length := by
  induction ds with
  | nil => intro i q; simp [tickDoublets]
  | cons d ds ih =>
    intro i q
    unfold tickDoublets
    cases hab : d.abandoned
    · simp only [Bool.false_eq_true, if_false, ih, List.filter_cons, hab, Bool.not_false, if_true,
        List.length_cons]; omega
    · simp only [if_true, ih, List.filter_cons, hab, Bool.not_true, Bool.false_eq_true, if_false]

theorem tempDrawStart_eq (s : State) (rng : Nat → ℚ) (hp : s.pendingEvent = none) :
    tempDrawStart s rng =
      (scanEvents rng 0 triggerableEvents).2 + (s.sites.filter takeable).length := by
  have h2 : (checkForEvents s s rng 0).2 = (scanEvents rng 0 triggerableEvents).2 := by
    simp only [checkForEvents, hp, Option.isSome_none, Bool.false_eq_true, if_false]
    split <;> rename_i h <;> simp [h]
  simp only [tempDrawStart, competitorAction, competitorSites_draws, h2]

theorem generateSites_length (g : Nat → ℚ) : (generateSites g).length = 10 := by
  simp [generateSites, siteNames, siteColors]

theorem generateSites_takeable (g : Nat → ℚ) :
    ((generateSites g).filter takeable).length = 10 := by
  have : (generateSites g).filter takeable = generateSites g := by
    rw [List.filter_eq_self]
    intro x hx
    obtain ⟨h1, h2, h3, h4⟩ := generateSites_flags g x hx
    simp [takeable, h1, h2, h3, h4]
  rw [this, generateSites_length]

theorem advanceQuarter_speed_of_event (s : State) (rng : Nat → ℚ)
    (hg : s.gameOver = false) (hp : s.pendingEvent = none) (e : GameEvent)
    (he : (scanEvents rng 0 triggerableEvents).1 = some e) :
    (advanceQuarter s rng).1.speed = 0 := by
  have h1 := (competitorAction_fields s (checkForEvents s s rng 0).1 rng
    (checkForEvents s s rng 0).2).2.2.2.2.2.2.1
  have h2 : (checkForEvents s s rng 0).1.speed = 0 := by
    simp only [checkForEvents, hp, Option.isSome_none, Bool.false_eq_true, if_false]
    split <;> rename_i h <;> simp [h] at he ⊢
  simp only [advanceQuarter, hg, hp, Option.isSome_none, Bool.or_self,
    Bool.false_eq_true, if_false]
  split_ifs <;> first | rfl | exact h1.trans h2

theorem scanEvents_eventRng :
    scanEvents eventRng 0 triggerableEvents = (triggerableEvents.head?, 1) := by
  norm_num [scanEvents, triggerableEvents, eventRng]

/-- C4 (evaluation at the failing input). From the initial state, with the first
draw 0 (below the 0.02 of `backlash`) and all later draws 1/2, the event scan
triggers `backlash`, which becomes pending with speed 0, and the same call still
makes the ten competitor draws and the temperature draw (12 draws in all), adds
the quarter's net cash (15 becomes 17.644708), advances the quarter to 1 and cools
the legacy doublet from 105 to 104. -/
theorem advanceQuarter_event_tick_not_aborted :
    (initialState fun _ => 0).gameOver = false ∧
    (initialState fun _ => 0).pendingEvent = none ∧
    (scanEvents eventRng 0 triggerableEvents).1 = triggerableEvents.head? ∧
    (advanceQuarter (initialState fun _ => 0) eventRng).1.pendingEvent = triggerableEvents.head? ∧
    (advanceQuarter (initialState fun _ => 0) eventRng).1.speed = 0 ∧
    (advanceQuarter (initialState fun _ => 0) eventRng).2 = 12 ∧
    (advanceQuarter (initialState fun _ => 0) eventRng).1.cash = 17.644708 ∧
    (advanceQuarter (initialState fun _ => 0) eventRng).1.quarter = 1 ∧
    (advanceQuarter (initialState fun _ => 0) eventRng).1.doublets.map (fun d => d.currentTemp)
      = [104] := by
  have hg : (initialState fun _ => 0).gameOver = false := rfl
  have hp : (initialState fun _ => 0).pendingEvent = none := rfl
  have hd : (initialState fun _ => 0).doublets = [createInitialDoublet] := rfl
  have ha : createInitialDoublet.abandoned = false := rfl
  have hs : tempDrawStart (initialState fun _ => 0) eventRng = 11 := by
    rw [tempDrawStart_eq _ _ hp, scanEvents_eventRng]
    show 1 + ((generateSites fun _ => 0).filter takeable).length = 11
    rw [generateSites_takeable]
  refine ⟨hg, hp, by rw [scanEvents_eventRng], ?_, ?_, ?_, ?_, ?_, ?_⟩
  · rw [advanceQuarter_pendingEvent _ _ hg hp, scanEvents_eventRng]
  · exact advanceQuarter_speed_of_event _ _ hg hp triggerableEvents[0] (by
      rw [scanEvents_eventRng]; rfl)
  · rw [advanceQuarter_draws _ _ hg hp, tickDoublets_draws, hs, hd]
    simp [ha]
  · rw [advanceQuarter_cash _ _ hg hp, tickDoublets_netCash, holdingCosts_initial, hd]
    simp only [List.filter_cons, ha, Bool.not_false, if_true, List.filter_nil, List.map_cons,
      List.map_nil, List.sum_cons, List.sum_nil]
    norm_num [claimRevenue, claimHeatOutput, claimCost, initialState, createInitialDoublet,
      SEASONAL_MULTIPLIER]
  · rw [(advanceQuarter_quarter _ _ hg hp).1]; rfl
  · rw [advanceQuarter_doublets _ _ hg hp, hs, hd]
    have hq : ¬ (initialState fun _ => 0).quarter = 3 := by simp [initialState]
    rw [if_neg hq]
    simp only [tickDoublets, ha, Bool.false_eq_true, if_false, List.map_cons, List.map_nil]
    norm_num [tickDoublet, getNewTemperature, createInitialDoublet, eventRng, REFERENCE_TEMP]

/-! ## Site status flags (C5) -/

theorem statusOk_iff (x : Site) :
    StatusOk x ↔
      (x.secured = true → x.developed = false ∧ x.takenByCompetitor = false) ∧
      (x.developed = true → x.takenByCompetitor = false) ∧
      (x.underConstruction = true → x.secured = true) := by
  unfold StatusOk
  cases x.secured <;> cases x.developed <;> cases x.takenByCompetitor <;>
    cases x.underConstruction <;> decide

theorem forall_mem_set {α : Type} (P : α → Prop) (l : List α) (i : Nat) (y : α)
    (hl : ∀ x ∈ l, P x) (hy : P y) : ∀ x ∈ l.set i y, P x := by
  intro x hx
  rcases List.mem_or_eq_of_mem_set hx with h | h
  · exact hl x h
  · exact h ▸ hy

theorem mem_of_getElem?_eq_some {α : Type} {l : List α} {i : Nat} {x : α}
    (h : l[i]? = some x) : x ∈ l := by
  rw [List.getElem?_eq_some] at h
  obtain ⟨hi, rfl⟩ := h
  exact List.getElem_mem hi

theorem investigatedSite_flags (x : Site) (L : Level) :
    (investigatedSite x L).secured = x.secured ∧
    (investigatedSite x L).developed = x.developed ∧
    (investigatedSite x L).takenByCompetitor = x.takenByCompetitor ∧
    (investigatedSite x L).underConstruction = x.underConstruction := by
  unfold investigatedSite
  split_ifs <;> simp

theorem investigateSite_statusOk (s : State) (i : Nat) (L : Level)
    (h : ∀ x ∈ s.sites, StatusOk x) : ∀ x ∈ (investigateSite s i L).sites, StatusOk x := by
  unfold investigateSite
  split
  · exact h
  · rename_i site hsite
    split_ifs
    · exact h
    · refine forall_mem_set _ _ _ _ h ?_
      have := h site (mem_of_getElem?_eq_some hsite)
      obtain ⟨h1, h2, h3, h4⟩ := investigatedSite_flags site L
      simpa [StatusOk, h1, h2, h3, h4] using this

theorem secureSite_statusOk (s : State) (i : Nat)
    (h : ∀ x ∈ s.sites, StatusOk x) : ∀ x ∈ (secureSite s i).sites, StatusOk x := by
  unfold secureSite
  split
  · exact h
  · rename_i site hsite
    split_ifs with hg
    · exact h
    · refine forall_mem_set _ _ _ _ h ?_
      have := (statusOk_iff _).1 (h site (mem_of_getElem?_eq_some hsite))
      rw [statusOk_iff]
      simp only [Bool.or_eq_true, decide_eq_true_eq, not_or, Bool.not_eq_true] at hg
      simp_all

theorem startDevelopment_statusOk (s : State) (i : Nat) (f r : ℚ)
    (h : ∀ x ∈ s.sites, StatusOk x) : ∀ x ∈ (startDevelopment s i f r).sites, StatusOk x := by
  unfold startDevelopment
  split
  · exact h
  · rename_i site hsite
    have := (statusOk_iff _).1 (h site (mem_of_getElem?_eq_some hsite))
    split_ifs with hg1 hg2 hr
    · exact h
    · exact h
    · refine forall_mem_set _ _ _ _ h ?_
      rw [statusOk_iff]
      simp only [Bool.or_eq_true, Bool.not_eq_true', not_or, Bool.not_eq_true] at hg1
      simp_all
    · refine forall_mem_set _ _ _ _ h ?_
      rw [statusOk_iff]
      simp only [Bool.or_eq_true, Bool.not_eq_true', not_or, Bool.not_eq_true] at hg1
      simp_all

theorem competitorSites_statusOk (rng : Nat → ℚ) (l : List Site) :
    ∀ i, (∀ x ∈ l, StatusOk x) → ∀ x ∈ (competitorSites rng i l).1, StatusOk x := by
  induction l with
  | nil => intro i _; simp [competitorSites]
  | cons y ys ih =>
    intro i h
    have hy := h y (List.mem_cons_self _ _)
    have hys : ∀ x ∈ ys, StatusOk x := fun x hx => h x (List.mem_cons_of_mem _ hx)
    unfold competitorSites
    split_ifs with h1 h2
    · intro x hx
      rcases List.mem_cons.1 hx with rfl | hx
      · rw [statusOk_iff]
        simp only [takeable, Bool.and_eq_true, Bool.not_eq_true'] at h1
        simp_all
      · exact ih _ hys x hx
    · intro x hx
      rcases List.mem_cons.1 hx with rfl | hx
      · exact hy
      · exact ih _ hys x hx
    · intro x hx
      rcases List.mem_cons.1 hx with rfl | hx
      · exact hy
      · exact ih _ hys x hx

theorem competitorAction_statusOk (snap cur : State) (rng : Nat → ℚ) (i : Nat)
    (hs : ∀ x ∈ snap.sites, StatusOk x) (hc : ∀ x ∈ cur.sites, StatusOk x) :
    ∀ x ∈ (competitorAction snap cur rng i).1.sites, StatusOk x := by
  simp only [competitorAction]
  split_ifs
  · exact competitorSites_statusOk rng snap.sites i hs
  · exact hc

theorem checkConstructionComplete_statusOk (snap cur : State)
    (hs : ∀ x ∈ snap.sites, StatusOk x) (hc : ∀ x ∈ cur.sites, StatusOk x) :
    ∀ x ∈ (checkConstructionComplete snap cur).sites, StatusOk x := by
  simp only [checkConstructionComplete]
  split_ifs
  · exact hc
  · intro x hx
    simp only [List.mem_map] at hx
    obtain ⟨y, hy, rfl⟩ := hx
    have := (statusOk_iff _).1 (hs y hy)
    split_ifs with hcomp
    · rw [statusOk_iff]
      simp only [completes, Bool.and_eq_true, decide_eq_true_eq] at hcomp
      simp_all [completedSite]
    · exact hs y hy

theorem advanceQuarter_sites (s : State) (rng : Nat → ℚ) :
    (advanceQuarter s rng).1.sites = s.sites ∨
      ∃ i, (advanceQuarter s rng).1.sites = (competitorSites rng i s.sites).1 := by
  by_cases hb : (s.gameOver || s.pendingEvent.isSome) = true
  · left; rw [advanceQuarter_blocked s rng hb]
  · obtain ⟨hg, hp⟩ := (not_blocked_iff s).1 (by simpa using hb)
    have h2 := (checkForEvents_fields s s rng 0).2.2.2.1
    have key : (competitorAction s (checkForEvents s s rng 0).1 rng (checkForEvents s s rng 0).2).1.sites
        = s.sites ∨ ∃ i, (competitorAction s (checkForEvents s s rng 0).1 rng
          (checkForEvents s s rng 0).2).1.sites = (competitorSites rng i s.sites).1 := by
      simp only [competitorAction]
      split_ifs
      · right; exact ⟨_, rfl⟩
      · left; exact h2
    have : (advanceQuarter s rng).1.sites =
        (competitorAction s (checkForEvents s s rng 0).1 rng (checkForEvents s s rng 0).2).1.sites := by
      simp only [advanceQuarter, hg, hp, Option.isSome_none, Bool.or_self,
        Bool.false_eq_true, if_false]
      split_ifs <;> rfl
    rw [this]; exact key

theorem abandonDoublet_sites (s : State) (id : Nat) : (abandonDoublet s id).sites = s.sites := rfl

theorem handleEventChoice_sites (s : State) (k : Nat) :
    (handleEventChoice s k).sites = s.sites ∧ (handleEventChoice s k).doublets = s.doublets := by
  unfold handleEventChoice
  split
  · exact ⟨rfl, rfl⟩
  · split
    · exact ⟨rfl, rfl⟩
    · rename_i choice _
      split_ifs
      · cases choice.effect <;> exact ⟨rfl, rfl⟩
      · exact ⟨rfl, rfl⟩

theorem reachable_statusOk (s : State) (h : Reachable s) : ∀ x ∈ s.sites, StatusOk x := by
  induction h with
  | init rng =>
    intro x hx
    obtain ⟨h1, h2, h3, h4⟩ := generateSites_flags rng x hx
    rw [statusOk_iff]; simp [h1, h2, h3, h4]
  | investigate i L _ ih => exact investigateSite_statusOk _ i L ih
  | secure i _ ih => exact secureSite_statusOk _ i ih
  | develop i f r _ ih => exact startDevelopment_statusOk _ i f r ih
  | abandon id _ ih => exact ih
  | choose k _ ih => rw [(handleEventChoice_sites _ k).1]; exact ih
  | competitor rng i _ ih => exact competitorAction_statusOk _ _ rng i ih ih
  | advance rng _ ih =>
    rcases advanceQuarter_sites _ rng with h | ⟨i, h⟩
    · rw [h]; exact ih
    · rw [h]; exact competitorSites_statusOk rng _ i ih
  | construction _ _ ih1 ih2 => exact checkConstructionComplete_statusOk _ _ ih1 ih2

theorem drillingState_reachable : Reachable drillingState :=
  Reachable.develop 0 50 (1 / 2) (Reachable.secure 0 (Reachable.init _))

theorem drillingState_site0 :
    drillingState.sites[0]? = some
      { mkSite (fun _ => 0) 0 "A" "#e74c3c" with
        secured := true, underConstruction := true,
        constructionCompleteYear := some 2027, plannedFlowRate := some 50 } := by
  norm_num [drillingState, startDevelopment, secureSite, initialState, generateSites, mkSite,
    siteNames, siteColors, List.enum, List.enumFrom, SECURE_COST, activeCount, MAX_DOUBLETS,
    createInitialDoublet, DRILLING_FAILURE_RATE, CONSTRUCTION_DELAY]

/-- C5 (counterexample). After `secureSite` and a successful `startDevelopment`
on site 0 of the initial state, that site has `secured` and `underConstruction`
both set: two of the four status flags. -/
theorem secured_site_under_construction :
    Reachable drillingState ∧
    ∃ x ∈ drillingState.sites,
      x.secured = true ∧ x.underConstruction = true ∧ flagCount x = 2 :=
  ⟨drillingState_reachable,
   _, mem_of_getElem?_eq_some drillingState_site0, rfl, rfl, by simp [flagCount, mkSite]⟩

/-- C5 (amended). In every reachable state every site satisfies `StatusOk`: at
most one of `secured`, `developed`, `takenByCompetitor` is set and
`underConstruction` is set only together with `secured`.  So either at most one
of the four flags is set, or exactly `secured` and `underConstruction` are. -/
theorem reachable_site_status (s : State) (h : Reachable s) :
    ∀ x ∈ s.sites, StatusOk x ∧
      (flagCount x ≤ 1 ∨
        (x.secured = true ∧ x.underConstruction = true ∧ x.developed = false ∧
          x.takenByCompetitor = false)) := by
  intro x hx
  have hok := reachable_statusOk s h x hx
  refine ⟨hok, ?_⟩
  have := (statusOk_iff x).1 hok
  revert this
  unfold flagCount
  cases x.secured <;> cases x.developed <;> cases x.takenByCompetitor <;>
    cases x.underConstruction <;> simp

/-- Witness for C5 (amended): the state of the counterexample. -/
theorem reachable_site_status_witness :
    Reachable drillingState ∧
    ∀ x ∈ drillingState.sites, StatusOk x ∧
      (flagCount x ≤ 1 ∨
        (x.secured = true ∧ x.underConstruction = true ∧ x.developed = false ∧
          x.takenByCompetitor = false)) :=
  ⟨drillingState_reachable, reachable_site_status drillingState drillingState_reachable⟩

/-! ## Portfolio capacity (C6) -/

theorem filter_length_set {α : Type} (p : α → Bool) (l : List α) :
    ∀ (i : Nat) (x y : α), l[i]? = some x →
      ((l.set i y).filter p).length + (if p x then 1 else 0)
        = (l.filter p).length + (if p y then 1 else 0) := by
  induction l with
  | nil => intro i x y h; simp at h
  | cons a as ih =>
    intro i x y h
    cases i with
    | zero =>
      simp only [List.getElem?_cons_zero, Option.some.injEq] at h
      subst h
      simp only [List.set_cons_zero, List.filter_cons]
      cases p a <;> cases p y <;> simp
    | succ j =>
      simp only [List.getElem?_cons_succ] at h
      have := ih j x y h
      simp only [List.set_cons_succ, List.filter_cons]
      cases p a <;> simp <;> omega

theorem underConstruction_count_set (l : List Site) (i : Nat) (x y : Site)
    (h : l[i]? = some x) (hxy : y.underConstruction = x.underConstruction) :
    ((l.set i y).filter fun z => z.underConstruction).length
      = (l.filter fun z => z.underConstruction).length := by
  have := filter_length_set (fun z : Site => z.underConstruction) l i x y h
  simp only [hxy] at this
  omega

theorem investigateSite_activeCount (s : State) (i : Nat) (L : Level) :
    activeCount (investigateSite s i L) = activeCount s := by
  unfold investigateSite
  split
  · rfl
  · rename_i site hsite
    split_ifs
    · rfl
    · simp only [activeCount]
      rw [underConstruction_count_set s.sites i site _ hsite (investigatedSite_flags site L).2.2.2]

theorem secureSite_activeCount (s : State) (i : Nat) :
    activeCount (secureSite s i) = activeCount s := by
  unfold secureSite
  split
  · rfl
  · rename_i site hsite
    split_ifs
    · rfl
    · simp only [activeCount]
      rw [underConstruction_count_set s.sites i site _ hsite]
      rfl

theorem startDevelopment_rejected_at_capacity (s : State) (i : Nat) (f r : ℚ)
    (h : MAX_DOUBLETS ≤ activeCount s) : startDevelopment s i f r = s := by
  unfold startDevelopment
  split
  · rfl
  · split_ifs with h1 h2
    · rfl
    · rfl
    · simp [h] at h2
    · simp [h] at h2

theorem startDevelopment_activeCount (s : State) (i : Nat) (f r : ℚ)
    (h : activeCount s ≤ MAX_DOUBLETS) : activeCount (startDevelopment s i f r) ≤ MAX_DOUBLETS := by
  unfold startDevelopment
  split
  · exact h
  · rename_i site hsite
    split_ifs with h1 h2 hr
    · exact h
    · exact h
    · simp only [Bool.or_eq_true, Bool.not_eq_true', not_or, Bool.not_eq_true] at h1
      simp only [activeCount]
      rw [underConstruction_count_set s.sites i site _ hsite]
      · exact h
      · rfl
    · simp only [Bool.or_eq_true, Bool.not_eq_true', not_or, Bool.not_eq_true] at h1
      simp only [Bool.or_eq_true, decide_eq_true_eq, not_or, not_le] at h2
      have := filter_length_set (fun z : Site => z.underConstruction) s.sites i site
        { site with underConstruction := true,
                    constructionCompleteYear := some (s.year + CONSTRUCTION_DELAY),
                    plannedFlowRate := some f } hsite
      simp only [h1.2, Bool.false_eq_true, if_false, if_true] at this
      have h3 := h2.1
      simp only [activeCount] at h3 ⊢
      omega

theorem abandonDoublet_activeCount (s : State) (id : Nat) :
    activeCount (abandonDoublet s id) ≤ activeCount s := by
  simp only [activeCount, abandonDoublet, add_le_add_iff_right]
  induction s.doublets with
  | nil => simp
  | cons d ds ih =>
    simp only [List.map_cons, List.filter_cons]
    split_ifs <;> simp_all; omega

theorem filter_length_of_forall₂ {α : Type} (p : α → Bool) (R : α → α → Prop)
    (hR : ∀ a b, R a b → p b = p a) (l l1 : List α) (h : List.Forall₂ R l l1) :
    (l1.filter p).length = (l.filter p).length := by
  induction h with
  | nil => rfl
  | cons hab _ ih =>
    simp only [List.filter_cons, hR _ _ hab]
    split_ifs <;> simp [ih]

theorem competitorSites_forall₂ (rng : Nat → ℚ) (l : List Site) :
    ∀ i, List.Forall₂ (fun x y : Site => y.underConstruction = x.underConstruction ∧
        y.secured = x.secured ∧ y.developed = x.developed ∧ y.id = x.id ∧
        (x.takenByCompetitor = true → y.takenByCompetitor = true))
      l (competitorSites rng i l).1 := by
  induction l with
  | nil => intro i; simp [competitorSites]
  | cons y ys ih =>
    intro i
    unfold competitorSites
    split_ifs
    · exact List.Forall₂.cons ⟨rfl, rfl, rfl, rfl, fun _ => rfl⟩ (ih _)
    · exact List.Forall₂.cons ⟨rfl, rfl, rfl, rfl, id⟩ (ih _)
    · exact List.Forall₂.cons ⟨rfl, rfl, rfl, rfl, id⟩ (ih _)

theorem competitorSites_underConstruction (rng : Nat → ℚ) (l : List Site) (i : Nat) :
    ((competitorSites rng i l).1.filter fun z => z.underConstruction).length
      = (l.filter fun z => z.underConstruction).length :=
  filter_length_of_forall₂ _ _ (fun _ _ h => h.1) _ _ (competitorSites_forall₂ rng l i)

theorem competitorAction_activeCount (s : State) (rng : Nat → ℚ) (i : Nat) :
    activeCount (competitorAction s s rng i).1 = activeCount s := by
  simp only [competitorAction]
  split_ifs
  · simp only [activeCount, competitorSites_underConstruction]
  · rfl

theorem advanceQuarter_abandoned (s : State) (rng : Nat → ℚ) :
    List.Forall₂ (fun d d1 : Doublet => d1.abandoned = d.abandoned ∧ d1.id = d.id)
      s.doublets (advanceQuarter s rng).1.doublets := by
  by_cases hb : (s.gameOver || s.pendingEvent.isSome) = true
  · rw [advanceQuarter_blocked s rng hb]
    exact List.forall₂_same.2 fun d _ => ⟨rfl, rfl⟩
  · have hb1 := (not_blocked_iff s).1 (by simpa using hb)
    rw [advanceQuarter_doublets s rng hb1.1 hb1.2]
    have key := tickDoublets_forall₂ s rng
      (fun d d1 : Doublet => d1.abandoned = d.abandoned ∧ d1.id = d.id)
      (fun d r _ => by unfold tickDoublet; split_ifs <;> exact ⟨rfl, rfl⟩) s.doublets
      (tempDrawStart s rng) 0
    split_ifs
    · rw [List.forall₂_map_right_iff]
      refine key.imp fun d d1 h => ?_
      unfold archiveDoublet
      split_ifs <;> exact h
    · exact key

theorem advanceQuarter_activeCount (s : State) (rng : Nat → ℚ) :
    activeCount (advanceQuarter s rng).1 = activeCount s := by
  have hd := filter_length_of_forall₂ (fun d : Doublet => !d.abandoned) _
    (fun a b (h : b.abandoned = a.abandoned ∧ b.id = a.id) => by simp [h.1]) _ _
    (advanceQuarter_abandoned s rng)
  simp only [activeCount, hd]
  rcases advanceQuarter_sites s rng with h | ⟨i, h⟩
  · rw [h]
  · rw [h, competitorSites_underConstruction]

theorem completed_underConstruction (snap : State) (l : List Site) :
    ((l.map fun site => if completes snap site then completedSite site else site).filter
        fun z => z.underConstruction).length + (l.filter (completes snap)).length
      = (l.filter fun z => z.underConstruction).length := by
  induction l with
  | nil => rfl
  | cons x xs ih =>
    simp only [List.map_cons, List.filter_cons]
    by_cases hc : completes snap x = true
    · have hu : x.underConstruction = true := by
        simp only [completes, Bool.and_eq_true] at hc; exact hc.1.1
      have hn : (completedSite x).underConstruction = false := rfl
      simp only [hc, if_true, hn, hu, Bool.false_eq_true, if_false, List.length_cons]
      omega
    · simp only [hc, if_false, Bool.false_eq_true]
      split_ifs
      · simp only [List.length_cons]; omega
      · exact ih

theorem checkConstructionComplete_activeCount (snap cur : State) :
    activeCount (checkConstructionComplete snap cur) = activeCount snap ∨
      checkConstructionComplete snap cur = cur := by
  simp only [checkConstructionComplete]
  split_ifs
  · right; rfl
  · left
    have h1 := completed_underConstruction snap snap.sites
    have h2 : ((snap.sites.filter (completes snap)).map (newDoublet snap)).filter
        (fun d => !d.abandoned) = (snap.sites.filter (completes snap)).map (newDoublet snap) := by
      rw [List.filter_eq_self]
      intro d hd
      simp only [List.mem_map] at hd
      obtain ⟨x, -, rfl⟩ := hd
      rfl
    simp only [activeCount, List.filter_append, List.length_append, h2, List.length_map]
    omega

theorem initialState_activeCount (g : Nat → ℚ) : activeCount (initialState g) = 1 := by
  have : (generateSites g).filter (fun z => z.underConstruction) = [] := by
    rw [List.filter_eq_nil_iff]
    intro x hx
    simp [(generateSites_flags g x hx).2.2.2]
  simp only [activeCount, initialState, this, createInitialDoublet]
  rfl

theorem reachable_activeCount (s : State) (h : Reachable s) : activeCount s ≤ MAX_DOUBLETS := by
  induction h with
  | init rng => rw [initialState_activeCount]; decide
  | investigate i L _ ih => rw [investigateSite_activeCount]; exact ih
  | secure i _ ih => rw [secureSite_activeCount]; exact ih
  | develop i f r _ ih => exact startDevelopment_activeCount _ i f r ih
  | abandon id _ ih => exact le_trans (abandonDoublet_activeCount _ id) ih
  | @choose s k _ ih =>
    have := handleEventChoice_sites s k
    simp only [activeCount, this.1, this.2] at ih ⊢
    exact ih
  | competitor rng i _ ih => rw [competitorAction_activeCount]; exact ih
  | advance rng _ ih => rw [advanceQuarter_activeCount]; exact ih
  | construction _ _ ih1 ih2 =>
    rcases checkConstructionComplete_activeCount _ _ with h | h
    · rw [h]; exact ih1
    · rw [h]; exact ih2

/-- C6. In every reachable state the non-abandoned doublets plus the sites under
construction number at most `MAX_DOUBLETS = 10`; `startDevelopment` changes
nothing when that number is already 10 or more; a construction pass run on the
state it belongs to keeps the number; `abandonDoublet` never raises it. -/
theorem portfolio_capacity :
    (∀ s, Reachable s → activeCount s ≤ MAX_DOUBLETS) ∧
    (∀ s i f r, MAX_DOUBLETS ≤ activeCount s → startDevelopment s i f r = s) ∧
    (∀ s, activeCount (checkConstructionComplete s s) = activeCount s) ∧
    (∀ s id, activeCount (abandonDoublet s id) ≤ activeCount s) :=
  ⟨reachable_activeCount, startDevelopment_rejected_at_capacity,
   fun s => by
     rcases checkConstructionComplete_activeCount s s with h | h
     · exact h
     · rw [h],
   abandonDoublet_activeCount⟩

/-- Witness for C6: the reachable state with site 0 under construction holds
two of the ten places. -/
theorem portfolio_capacity_witness :
    Reachable drillingState ∧ activeCount drillingState ≤ MAX_DOUBLETS :=
  ⟨drillingState_reachable, portfolio_capacity.1 drillingState drillingState_reachable⟩

/-! ## Drilling failure (C7) -/

theorem startDevelopment_failure (s : State) (i : Nat) (f r : ℚ) (site : Site)
    (hsite : s.sites[i]? = some site) (hsec : site.secured = true)
    (hdev : site.developed = false) (huc : site.underConstruction = false)
    (hcap : activeCount s < MAX_DOUBLETS) (hcash : site.trueDrillingCost ≤ s.cash)
    (hr : r < DRILLING_FAILURE_RATE) :
    startDevelopment s i f r =
      { s with cash := s.cash - site.trueDrillingCost, sites := s.sites.set i (failedSite site) } := by
  have h2 : ¬ (activeCount s ≥ MAX_DOUBLETS) := by omega
  have h3 : ¬ (s.cash < site.trueDrillingCost) := not_lt.2 hcash
  simp only [startDevelopment, hsite, hsec, hdev, huc, h2, h3, hr, failedSite, Bool.not_true,
    Bool.or_self, Bool.false_eq_true, if_false, decide_False, if_true]

theorem startDevelopment_keeps_failed (t : State) (i : Nat) (y : Site)
    (hy : t.sites[i]? = some y) (hsec : y.secured = false) (j : Nat) (f r : ℚ) :
    (startDevelopment t j f r).sites[i]? = some y ∧
      (startDevelopment t j f r).doublets = t.doublets := by
  unfold startDevelopment
  split
  · exact ⟨hy, rfl⟩
  · rename_i site hsite
    split_ifs with h1 h2 h3
    · exact ⟨hy, rfl⟩
    · exact ⟨hy, rfl⟩
    all_goals
      have hji : j ≠ i := by
        rintro rfl
        rw [hy] at hsite
        cases hsite
        simp [hsec] at h1
      exact ⟨by simp only [List.getElem?_set_ne hji]; exact hy, rfl⟩

theorem secureSite_keeps_failed (t : State) (i : Nat) (y : Site)
    (hy : t.sites[i]? = some y) (hdev : y.developed = true) (j : Nat) :
    (secureSite t j).sites[i]? = some y ∧ (secureSite t j).doublets = t.doublets := by
  unfold secureSite
  split
  · exact ⟨hy, rfl⟩
  · rename_i site hsite
    split_ifs with h1
    · exact ⟨hy, rfl⟩
    · have hji : j ≠ i := by
        rintro rfl
        rw [hy] at hsite
        cases hsite
        simp [hdev] at h1
      exact ⟨by simp only [List.getElem?_set_ne hji]; exact hy, rfl⟩

theorem checkConstructionComplete_keeps (snap cur : State) (i : Nat) (y : Site)
    (hs : snap.sites[i]? = some y) (hc : cur.sites[i]? = some y)
    (huc : y.underConstruction = false) :
    (checkConstructionComplete snap cur).sites[i]? = some y := by
  simp only [checkConstructionComplete]
  split_ifs
  · exact hc
  · have : completes snap y = false := by simp [completes, huc]
    simp [List.getElem?_map, hs, this]

theorem checkConstructionComplete_doublets (snap cur : State) :
    ∀ d ∈ (checkConstructionComplete snap cur).doublets,
      d ∈ cur.doublets ∨ d ∈ snap.doublets ∨
        ∃ x ∈ snap.sites, x.underConstruction = true ∧ d = newDoublet snap x := by
  intro d hd
  simp only [checkConstructionComplete] at hd
  split_ifs at hd
  · exact Or.inl hd
  · simp only [List.mem_append, List.mem_map, List.mem_filter] at hd
    rcases hd with hd | ⟨x, ⟨hx, hcomp⟩, rfl⟩
    · exact Or.inr (Or.inl hd)
    · refine Or.inr (Or.inr ⟨x, hx, ?_, rfl⟩)
      simp only [completes, Bool.and_eq_true] at hcomp
      exact hcomp.1.1

/-- C7. When `startDevelopment` is accepted (site secured, not developed, not
under construction, `activeCount < MAX_DOUBLETS`, cash at least the drilling cost)
and the draw is below `DRILLING_FAILURE_RATE`: cash drops by exactly the site's
`trueDrillingCost`, the site becomes `failedSite site` (developed, not secured,
not under construction), and the doublets are unchanged.  And in any state that
holds, at that index, a site that is developed, not secured and not under
construction, every `startDevelopment`, every `secureSite` and every construction pass
(run on that state, or deferred with captured values that already hold the site)
leave that site as it is; `startDevelopment` and `secureSite` leave the doublets
as they are, and every doublet a construction pass adds is built from a site under
construction at another index. -/
theorem drilling_failure (s : State) (i : Nat) (f r : ℚ) (site : Site)
    (hsite : s.sites[i]? = some site) (hsec : site.secured = true)
    (hdev : site.developed = false) (huc : site.underConstruction = false)
    (hcap : activeCount s < MAX_DOUBLETS) (hcash : site.trueDrillingCost ≤ s.cash)
    (hr : r < DRILLING_FAILURE_RATE) :
    ((startDevelopment s i f r).cash = s.cash - site.trueDrillingCost ∧
      (startDevelopment s i f r).sites = s.sites.set i (failedSite site) ∧
      (startDevelopment s i f r).sites[i]? = some (failedSite site) ∧
      (failedSite site).developed = true ∧ (failedSite site).secured = false ∧
      (failedSite site).underConstruction = false ∧
      (startDevelopment s i f r).doublets = s.doublets) ∧
    (∀ (t : State) (y : Site), t.sites[i]? = some y → y.developed = true → y.secured = false →
      y.underConstruction = false →
      (∀ j f1 r1, (startDevelopment t j f1 r1).sites[i]? = some y ∧
        (startDevelopment t j f1 r1).doublets = t.doublets) ∧
      (∀ j, (secureSite t j).sites[i]? = some y ∧ (secureSite t j).doublets = t.doublets) ∧
      (∀ snap : State, snap.sites[i]? = some y →
        (checkConstructionComplete snap t).sites[i]? = some y ∧
        (∀ d ∈ (checkConstructionComplete snap t).doublets,
          d ∈ t.doublets ∨ d ∈ snap.doublets ∨
            ∃ j x, j ≠ i ∧ snap.sites[j]? = some x ∧ x.underConstruction = true ∧
              d = newDoublet snap x))) := by
  have h := startDevelopment_failure s i f r site hsite hsec hdev huc hcap hcash hr
  have hlt : i < s.sites.length := by
    rw [List.getElem?_eq_some] at hsite; exact hsite.1
  refine ⟨⟨by rw [h], by rw [h], ?_, rfl, rfl, huc, by rw [h]⟩, ?_⟩
  · rw [h]
    simp [List.getElem?_set_self, hlt]
  · intro t y hy hd hs hu
    refine ⟨fun j f1 r1 => startDevelopment_keeps_failed t i y hy hs j f1 r1,
      fun j => secureSite_keeps_failed t i y hy hd j,
      fun snap hsnap => ⟨checkConstructionComplete_keeps snap t i y hsnap hy hu, fun d hd1 => ?_⟩⟩
    rcases checkConstructionComplete_doublets snap t d hd1 with h1 | h1 | h1
    · exact Or.inl h1
    · exact Or.inr (Or.inl h1)
    · obtain ⟨x, hx, hxu, rfl⟩ := h1
      obtain ⟨j, hj⟩ := List.mem_iff_getElem?.1 hx
      refine Or.inr (Or.inr ⟨j, x, ?_, hj, hxu, rfl⟩)
      rintro rfl
      rw [hsnap] at hj
      cases hj
      simp [hu] at hxu

theorem securedState_site0 :
    securedState.sites[0]? = some { mkSite (fun _ => 0) 0 "A" "#e74c3c" with secured := true } := by
  norm_num [securedState, secureSite, initialState, generateSites, mkSite,
    siteNames, siteColors, List.enum, List.enumFrom, SECURE_COST]

theorem securedState_cash : securedState.cash = 13 := by
  norm_num [securedState, secureSite, initialState, generateSites, mkSite,
    siteNames, siteColors, List.enum, List.enumFrom, SECURE_COST]

theorem securedState_activeCount : activeCount securedState = 1 := by
  rw [securedState, secureSite_activeCount, initialState_activeCount]

/-- Witness for C7: drilling site 0 of `securedState` with a failure draw of 0
costs its drilling cost 5 (cash 13 becomes 8) and leaves the doublets as they were. -/
theorem drilling_failure_witness :
    (startDevelopment securedState 0 50 0).cash = 8 ∧
    (startDevelopment securedState 0 50 0).sites[0]? =
      some (failedSite { mkSite (fun _ => 0) 0 "A" "#e74c3c" with secured := true }) ∧
    (startDevelopment securedState 0 50 0).doublets = securedState.doublets := by
  have h := (drilling_failure securedState 0 50 0 _ securedState_site0 rfl rfl rfl
    (by rw [securedState_activeCount]; decide)
    (by rw [securedState_cash]; norm_num [mkSite])
    (by norm_num [DRILLING_FAILURE_RATE])).1
  refine ⟨?_, h.2.2.1, h.2.2.2.2.2.2⟩
  rw [h.1, securedState_cash]
  norm_num [mkSite]

/-! ## Construction completion (C8) -/

/-- C8 (evaluation at the failing input). In `twoDueState` cash is 5 and each of
the two due sites costs 3.  One pass of `checkConstructionComplete` completes
both: after the first completion 2 is left, less than the second site's cost,
yet the second site is completed too, and cash ends at -1. -/
theorem checkConstructionComplete_overspends :
    twoDueState.cash = 5 ∧
    (twoDueState.sites.filter fun x => x.underConstruction).map
      (fun x => x.trueConstructionCost) = [3, 3] ∧
    (checkConstructionComplete twoDueState twoDueState).cash = -1 ∧
    ((checkConstructionComplete twoDueState twoDueState).sites.filter
      fun x => x.underConstruction) = [] ∧
    (checkConstructionComplete twoDueState twoDueState).doublets.map (fun d => d.siteId)
      = [-1, 0, 1] := by
  refine ⟨rfl, ?_, ?_, ?_, ?_⟩ <;>
  norm_num [twoDueState, checkConstructionComplete, completes, completedSite, newDoublet,
    initialState, generateSites, mkSite, siteNames, siteColors, List.enum, List.enumFrom,
    createInitialDoublet, List.filter]

/-! ## Investigation is idempotent (C9) -/

theorem investigatedSite_investigated (x : Site) (L : Level) :
    (investigatedSite x L).investigated = L.num ∧
      (investigatedSite x L).takenByCompetitor = x.takenByCompetitor := by
  unfold investigatedSite
  split_ifs <;> simp

theorem investigateSite_rejected (s : State) (i : Nat) (L : Level) (site : Site)
    (hsite : s.sites[i]? = some site)
    (h : L.num ≤ site.investigated ∨ site.takenByCompetitor = true ∨
      s.cash < investigationCosts L) : investigateSite s i L = s := by
  have : (decide (site.investigated ≥ L.num) || site.takenByCompetitor
      || decide (s.cash < investigationCosts L)) = true := by
    rcases h with h | h | h <;> simp [h]
  simp only [investigateSite, hsite, this, if_true]

theorem investigateSite_accepted (s : State) (i : Nat) (L : Level) (site : Site)
    (hsite : s.sites[i]? = some site) (hlev : site.investigated < L.num)
    (hnt : site.takenByCompetitor = false) (hcash : investigationCosts L ≤ s.cash) :
    investigateSite s i L =
      { s with sites := s.sites.set i (investigatedSite site L),
               cash := s.cash - investigationCosts L } := by
  have : (decide (site.investigated ≥ L.num) || site.takenByCompetitor
      || decide (s.cash < investigationCosts L)) = false := by
    simp [hnt, hlev, hcash]
  simp only [investigateSite, hsite, this, Bool.false_eq_true, if_false]

theorem investigateSite_site (s : State) (i : Nat) (L : Level) (site : Site)
    (hsite : s.sites[i]? = some site) :
    investigateSite s i L = s ∨
      (investigateSite s i L).sites[i]? = some (investigatedSite site L) := by
  by_cases h : L.num ≤ site.investigated ∨ site.takenByCompetitor = true ∨
      s.cash < investigationCosts L
  · exact Or.inl (investigateSite_rejected s i L site hsite h)
  · right
    simp only [not_or, not_le, not_lt, Bool.not_eq_true] at h
    rw [investigateSite_accepted s i L site hsite h.1 h.2.1 h.2.2]
    have hlt : i < s.sites.length := by
      rw [List.getElem?_eq_some] at hsite; exact hsite.1
    simp [List.getElem?_set_self, hlt]

/-- C9. `investigateSite` changes nothing (the whole state, so cash, the site's
`investigated`, `revealedTemp`, `revealedDrillingCost` and every other site) when
the site is already investigated to the level asked or higher, when it is taken
by a competitor, or when cash is below the level's cost (0.5 / 1.5 / 4.0).  After
any call at level `L`, a second call at the same level changes nothing; after an
accepted call at level `L`, a call at any level `L1 ≤ L` changes nothing. -/
theorem investigateSite_idempotent (s : State) (i : Nat) :
    (investigationCosts Level.one = 0.5 ∧ investigationCosts Level.two = 1.5 ∧
      investigationCosts Level.three = 4.0) ∧
    (∀ (site : Site) (L L1 : Level), s.sites[i]? = some site →
      (site.investigated = L.num ∧ L1.num ≤ L.num) ∨ site.takenByCompetitor = true ∨
        s.cash < investigationCosts L1 →
      investigateSite s i L1 = s) ∧
    (∀ L : Level, investigateSite (investigateSite s i L) i L = investigateSite s i L) ∧
    (∀ (site : Site) (L L1 : Level), s.sites[i]? = some site → site.investigated < L.num →
      site.takenByCompetitor = false → investigationCosts L ≤ s.cash → L1.num ≤ L.num →
      (investigateSite s i L).cash = s.cash - investigationCosts L ∧
      investigateSite (investigateSite s i L) i L1 = investigateSite s i L) := by
  refine ⟨⟨rfl, rfl, rfl⟩, ?_, ?_, ?_⟩
  · intro site L L1 hsite h
    apply investigateSite_rejected s i L1 site hsite
    rcases h with ⟨h1, h2⟩ | h | h
    · exact Or.inl (h1 ▸ h2)
    · exact Or.inr (Or.inl h)
    · exact Or.inr (Or.inr h)
  · intro L
    cases hsite : s.sites[i]? with
    | none =>
      have : investigateSite s i L = s := by simp only [investigateSite, hsite]
      rw [this, this]
    | some site =>
      rcases investigateSite_site s i L site hsite with h | h
      · rw [h, h]
      · exact investigateSite_rejected _ i L _ h
          (Or.inl (le_of_eq (investigatedSite_investigated site L).1.symm))
  · intro site L L1 hsite hlev hnt hcash hle
    refine ⟨by rw [investigateSite_accepted s i L site hsite hlev hnt hcash], ?_⟩
    rcases investigateSite_site s i L site hsite with h | h
    · have h2 := investigateSite_accepted s i L site hsite hlev hnt hcash
      rw [h] at h2
      have h3 := congrArg State.cash h2
      have hpos : 0 < investigationCosts L := by cases L <;> norm_num [investigationCosts]
      simp only at h3
      linarith
    · exact investigateSite_rejected _ i L1 _ h
        (Or.inl (by rw [(investigatedSite_investigated site L).1]; exact hle))

/-- Witness for C9: with cash 15, investigating site 0 of the initial state at
level 2 and then again at level 1 or 2 gives the state of the first call. -/
theorem investigateSite_idempotent_witness :
    investigateSite (investigateSite (initialState fun _ => 0) 0 Level.two) 0 Level.one
      = investigateSite (initialState fun _ => 0) 0 Level.two ∧
    investigateSite (investigateSite (initialState fun _ => 0) 0 Level.two) 0 Level.two
      = investigateSite (initialState fun _ => 0) 0 Level.two :=
  ⟨((investigateSite_idempotent (initialState fun _ => 0) 0).2.2.2
      (mkSite (fun _ => 0) 0 "A" "#e74c3c") Level.two Level.one
      (by simp [initialState, generateSites, siteNames, siteColors, List.enum, List.enumFrom])
      (by simp [mkSite, Level.num]) rfl
      (by norm_num [investigationCosts, initialState]) (by decide)).2,
   (investigateSite_idempotent (initialState fun _ => 0) 0).2.2.1 Level.two⟩

/-! ## What an investigation reveals (C10) -/

theorem floor_affine_bounds (a w r : ℚ) (lo hi : ℤ) (hr0 : 0 ≤ r) (hr1 : r < 1)
    (hw : 0 < w) (hlo : (lo : ℚ) ≤ a) (hhi : a + w ≤ (hi : ℚ) + 1) :
    ((lo : ℚ) ≤ (⌊a + r * w⌋ : ℚ)) ∧ ((⌊a + r * w⌋ : ℚ) ≤ (hi : ℚ)) := by
  have h1 : lo ≤ ⌊a + r * w⌋ := by
    rw [Int.le_floor]
    have : 0 ≤ r * w := mul_nonneg hr0 hw.le
    linarith
  have h2 : ⌊a + r * w⌋ < hi + 1 := by
    rw [Int.floor_lt]
    push_cast
    have : r * w < w := by nlinarith
    linarith
  exact ⟨by exact_mod_cast h1, by exact_mod_cast Int.lt_add_one_iff.1 h2⟩

theorem generateSites_true_values (rng : Nat → ℚ) (hrng : ∀ n, 0 ≤ rng n ∧ rng n < 1)
    (g : Site) (hg : g ∈ generateSites rng) :
    (∃ n : ℤ, g.trueTemp = n ∧ 80 ≤ n ∧ n ≤ 159) ∧
    (∃ n : ℤ, g.trueDrillingCost = n ∧ 5 ≤ n ∧ n ≤ 12) := by
  simp only [generateSites, List.mem_map] at hg
  obtain ⟨p, -, rfl⟩ := hg
  constructor
  · refine ⟨⌊80 + rng (4 * p.1) * 80⌋, rfl, ?_⟩
    have := floor_affine_bounds 80 80 (rng (4 * p.1)) 80 159 (hrng _).1 (hrng _).2
      (by norm_num) (by norm_num) (by norm_num)
    exact ⟨by exact_mod_cast this.1, by exact_mod_cast this.2⟩
  · refine ⟨⌊5 + rng (4 * p.1 + 2) * 8⌋, rfl, ?_⟩
    have := floor_affine_bounds 5 8 (rng (4 * p.1 + 2)) 5 12 (hrng _).1 (hrng _).2
      (by norm_num) (by norm_num) (by norm_num)
    exact ⟨by exact_mod_cast this.1, by exact_mod_cast this.2⟩

theorem investigatedSite_revealedTemp (site : Site) (L : Level)
    (hlo : 80 ≤ site.trueTemp) (hhi : site.trueTemp ≤ 159) :
    (investigatedSite site L).revealedTemp = some
      (match L with
       | Level.one => ⟨site.trueTemp - 15, site.trueTemp + 15⟩
       | Level.two => ⟨site.trueTemp - 10, site.trueTemp + 10⟩
       | Level.three => ⟨site.trueTemp, site.trueTemp⟩) := by
  cases L
  · simp only [investigatedSite, Level.num]
    norm_num
    constructor
    · linarith
    · linarith
  · simp only [investigatedSite, Level.num]
    norm_num
    constructor
    · linarith
    · linarith
  · simp [investigatedSite, Level.num]

theorem investigatedSite_revealedDrillingCost (site : Site) (L : Level)
    (hlo : 5 ≤ site.trueDrillingCost) :
    (investigatedSite site L).revealedDrillingCost =
      (match L with
       | Level.one => site.revealedDrillingCost
       | Level.two => some ⟨site.trueDrillingCost - 1, site.trueDrillingCost + 1⟩
       | Level.three => some ⟨site.trueDrillingCost, site.trueDrillingCost⟩) := by
  cases L
  · simp [investigatedSite, Level.num]
  · simp only [investigatedSite, Level.num]
    norm_num
    linarith
  · simp [investigatedSite, Level.num]

/-- C10. A site produced by `generateSites` from draws in `[0,1)` has an integer
`trueTemp` in `[80,159]` and an integer `trueDrillingCost` in `[5,12]`.  For a site
with those true values, an accepted `investigateSite` at level `L` stores
`investigatedSite site L`, whose `revealedTemp` contains `trueTemp`, has width at
most `2 * (20 - 5 L)` for `L < 3` and is exact at `L = 3`; at level 1
`revealedDrillingCost` is left as it was; from level 2 it is a range containing
`trueDrillingCost`, exact at level 3; and the level-2 temperature range lies inside
the level-1 range. -/
theorem investigateSite_reveals (rng : Nat → ℚ) (hrng : ∀ n, 0 ≤ rng n ∧ rng n < 1)
    (g : Site) (hg : g ∈ generateSites rng) :
    ((∃ n : ℤ, g.trueTemp = n ∧ 80 ≤ n ∧ n ≤ 159) ∧
      (∃ n : ℤ, g.trueDrillingCost = n ∧ 5 ≤ n ∧ n ≤ 12)) ∧
    ∀ (s : State) (i : Nat) (site : Site) (L : Level), s.sites[i]? = some site →
      site.trueTemp = g.trueTemp → site.trueDrillingCost = g.trueDrillingCost →
      site.investigated < L.num → site.takenByCompetitor = false →
      investigationCosts L ≤ s.cash →
      (investigateSite s i L).sites[i]? = some (investigatedSite site L) ∧
      (∃ rt, (investigatedSite site L).revealedTemp = some rt ∧ rt.Contains site.trueTemp ∧
        (L.num < 3 → rt.max - rt.min ≤ 2 * (20 - 5 * (L.num : ℚ))) ∧
        (L = Level.three → rt.min = site.trueTemp ∧ rt.max = site.trueTemp)) ∧
      (L = Level.one →
        (investigatedSite site L).revealedDrillingCost = site.revealedDrillingCost) ∧
      (2 ≤ L.num → ∃ rc, (investigatedSite site L).revealedDrillingCost = some rc ∧
        rc.Contains site.trueDrillingCost ∧
        (L = Level.three → rc.min = site.trueDrillingCost ∧ rc.max = site.trueDrillingCost)) ∧
      (∃ r1 r2, (investigatedSite site Level.one).revealedTemp = some r1 ∧
        (investigatedSite site Level.two).revealedTemp = some r2 ∧
        r1.min ≤ r2.min ∧ r2.max ≤ r1.max) := by
  have hv := generateSites_true_values rng hrng g hg
  refine ⟨hv, ?_⟩
  intro s i site L hsite hT hC hlev hnt hcash
  obtain ⟨⟨n, hn, hn1, hn2⟩, ⟨m, hm, hm1, _⟩⟩ := hv
  have hlo : (80 : ℚ) ≤ site.trueTemp := by rw [hT, hn]; exact_mod_cast hn1
  have hhi : site.trueTemp ≤ (159 : ℚ) := by rw [hT, hn]; exact_mod_cast hn2
  have hclo : (5 : ℚ) ≤ site.trueDrillingCost := by rw [hC, hm]; exact_mod_cast hm1
  have hlt : i < s.sites.length := by
    rw [List.getElem?_eq_some] at hsite; exact hsite.1
  refine ⟨?_, ⟨_, investigatedSite_revealedTemp site L hlo hhi, ?_, ?_, ?_⟩, ?_, ?_,
    ⟨_, _, investigatedSite_revealedTemp site Level.one hlo hhi,
      investigatedSite_revealedTemp site Level.two hlo hhi, ?_, ?_⟩⟩
  · rw [investigateSite_accepted s i L site hsite hlev hnt hcash]
    simp [List.getElem?_set_self, hlt]
  · cases L <;> constructor <;> simp
  · cases L <;> simp [Level.num] <;> norm_num
  · cases L <;> simp
  · intro hL; subst hL
    exact investigatedSite_revealedDrillingCost site Level.one hclo
  · intro hL
    have := investigatedSite_revealedDrillingCost site L hclo
    cases L
    · simp [Level.num] at hL
    · exact ⟨_, this, ⟨by simp, by simp⟩, by simp⟩
    · exact ⟨_, this, ⟨le_refl _, le_refl _⟩, fun _ => ⟨rfl, rfl⟩⟩
  · show site.trueTemp - 15 ≤ site.trueTemp - 10
    linarith
  · show site.trueTemp + 10 ≤ site.trueTemp + 15
    linarith

/-- Witness for C10: site 0 of the initial state generated from draws that are
all 0 (true temperature 80, drilling cost 5), investigated at level 2 with cash 15. -/
theorem investigateSite_reveals_witness :
    (investigateSite (initialState fun _ => 0) 0 Level.two).sites[0]? =
      some (investigatedSite (mkSite (fun _ => 0) 0 "A" "#e74c3c") Level.two) ∧
    (investigatedSite (mkSite (fun _ => 0) 0 "A" "#e74c3c") Level.two).revealedTemp =
      some ⟨70, 90⟩ ∧
    (investigatedSite (mkSite (fun _ => 0) 0 "A" "#e74c3c") Level.two).revealedDrillingCost =
      some ⟨4, 6⟩ := by
  have hg : mkSite (fun _ => 0) 0 "A" "#e74c3c" ∈ generateSites fun _ => 0 := by
    simp [generateSites, siteNames, siteColors, List.enum, List.enumFrom]
  have h := (investigateSite_reveals (fun _ => 0) (fun _ => by norm_num)
    (mkSite (fun _ => 0) 0 "A" "#e74c3c") hg).2 (initialState fun _ => 0) 0
    (mkSite (fun _ => 0) 0 "A" "#e74c3c") Level.two
    (by simp [initialState, generateSites, siteNames, siteColors, List.enum, List.enumFrom])
    rfl rfl (by simp [mkSite, Level.num]) rfl (by norm_num [investigationCosts, initialState])
  refine ⟨h.1, ?_, ?_⟩
  · norm_num [investigatedSite, mkSite, Level.num]
  · norm_num [investigatedSite, mkSite, Level.num]

/-! ## The tick: remaining fields -/

theorem advanceQuarter_gameOver (s : State) (rng : Nat → ℚ)
    (hg : s.gameOver = false) (hp : s.pendingEvent = none) :
    (advanceQuarter s rng).1.gameOver = (decide (newCash s rng < -10) || exhausted s rng) := by
  have h1 := (competitorAction_fields s (checkForEvents s s rng 0).1 rng
    (checkForEvents s s rng 0).2).2.2.2.2.2.1
  have h2 := (checkForEvents_fields s s rng 0).2.2.2.2.2.2.1
  simp only at h1 h2
  have h3 := h1.trans (h2.trans hg)
  simp only [advanceQuarter, hg, hp, Option.isSome_none, Bool.or_self,
    Bool.false_eq_true, if_false, newCash, exhausted, newDoublets, tempDrawStart]
  split_ifs <;> simp_all

theorem advanceQuarter_speed_of_gameOver (s : State) (rng : Nat → ℚ)
    (hg : s.gameOver = false) (hp : s.pendingEvent = none)
    (h : (advanceQuarter s rng).1.gameOver = true) : (advanceQuarter s rng).1.speed = 0 := by
  have h1 := (competitorAction_fields s (checkForEvents s s rng 0).1 rng
    (checkForEvents s s rng 0).2).2.2.2.2.2.1
  have h2 := (checkForEvents_fields s s rng 0).2.2.2.2.2.2.1
  simp only at h1 h2
  have h3 := h1.trans (h2.trans hg)
  revert h
  simp only [advanceQuarter, hg, hp, Option.isSome_none, Bool.or_self,
    Bool.false_eq_true, if_false]
  split_ifs <;> simp_all

theorem advanceQuarter_totalHeat (s : State) (rng : Nat → ℚ)
    (hg : s.gameOver = false) (hp : s.pendingEvent = none) :
    (advanceQuarter s rng).1.totalHeatDelivered = s.totalHeatDelivered + quarterlyHeat s rng := by
  have h1 := (competitorAction_fields s (checkForEvents s s rng 0).1 rng
    (checkForEvents s s rng 0).2).2.2.2.2.1
  have h2 := (checkForEvents_fields s s rng 0).2.2.2.2.2.1
  simp only at h1 h2
  simp only [advanceQuarter, hg, hp, Option.isSome_none, Bool.or_self,
    Bool.false_eq_true, if_false, quarterlyHeat, newDoublets, tempDrawStart]
  split_ifs <;> simp [h1, h2]

theorem advanceQuarter_histories (s : State) (rng : Nat → ℚ)
    (hg : s.gameOver = false) (hp : s.pendingEvent = none) :
    (advanceQuarter s rng).1.aggregateCashHistory =
      (if s.quarter = 3 then
        slice15 (s.aggregateCashHistory ++
          [⟨s.year, (newDoublets s rng).foldl (fun sum d => sum + d.currentYearCash) 0
            - holdingCosts s * 4⟩])
       else s.aggregateCashHistory) ∧
    (advanceQuarter s rng).1.aggregateHeatHistory =
      (if s.quarter = 3 then
        slice15 (s.aggregateHeatHistory ++
          [⟨s.year, (newDoublets s rng).foldl (fun sum d => sum + d.currentYearHeat) 0⟩])
       else s.aggregateHeatHistory) := by
  have h1 := competitorAction_fields s (checkForEvents s s rng 0).1 rng (checkForEvents s s rng 0).2
  have h2 := checkForEvents_fields s s rng 0
  simp only at h1 h2
  have ha := h1.2.2.2.2.2.2.2.2.2.2.2.1.trans h2.2.2.2.2.2.2.2.2.2.2.1
  have hb := h1.2.2.2.2.2.2.2.2.2.2.2.2.trans h2.2.2.2.2.2.2.2.2.2.2.2
  simp only [advanceQuarter, hg, hp, Option.isSome_none, Bool.or_self,
    Bool.false_eq_true, if_false, newDoublets, tempDrawStart]
  split_ifs <;> simp [ha, hb]

theorem competitorSites_unchanged (rng : Nat → ℚ) (l : List Site) :
    ∀ i, (competitorSites rng i l).2.1 = false → (competitorSites rng i l).1 = l := by
  induction l with
  | nil => intro i _; simp [competitorSites]
  | cons x xs ih =>
    intro i
    unfold competitorSites
    split_ifs
    · simp
    · intro h; simp only at h ⊢; rw [ih _ h]
    · intro h; simp only at h ⊢; rw [ih _ h]

theorem advanceQuarter_sites_eq (s : State) (rng : Nat → ℚ)
    (hg : s.gameOver = false) (hp : s.pendingEvent = none) :
    (advanceQuarter s rng).1.sites =
      (competitorSites rng (scanEvents rng 0 triggerableEvents).2 s.sites).1 := by
  have h2 := (checkForEvents_fields s s rng 0).2.2.2.1
  have h3 : (checkForEvents s s rng 0).2 = (scanEvents rng 0 triggerableEvents).2 := by
    simp only [checkForEvents, hp, Option.isSome_none, Bool.false_eq_true, if_false]
    split <;> rename_i h <;> simp [h]
  have key : (competitorAction s (checkForEvents s s rng 0).1 rng
      (checkForEvents s s rng 0).2).1.sites =
      (competitorSites rng (scanEvents rng 0 triggerableEvents).2 s.sites).1 := by
    simp only [competitorAction, h3]
    split_ifs with hc
    · rfl
    · rw [competitorSites_unchanged rng s.sites _ (by simpa using hc)]
      exact h2
  have : (advanceQuarter s rng).1.sites =
      (competitorAction s (checkForEvents s s rng 0).1 rng (checkForEvents s s rng 0).2).1.sites := by
    simp only [advanceQuarter, hg, hp, Option.isSome_none, Bool.or_self,
      Bool.false_eq_true, if_false]
    split_ifs <;> rfl
  rw [this]; exact key

theorem advanceQuarter_cash_eq_newCash (s : State) (rng : Nat → ℚ)
    (hg : s.gameOver = false) (hp : s.pendingEvent = none) :
    (advanceQuarter s rng).1.cash = newCash s rng := advanceQuarter_cash s rng hg hp

theorem advanceQuarter_doublets_eq (s : State) (rng : Nat → ℚ)
    (hg : s.gameOver = false) (hp : s.pendingEvent = none) :
    (advanceQuarter s rng).1.doublets =
      if s.quarter = 3 then (newDoublets s rng).map (archiveDoublet s.year)
      else newDoublets s rng := advanceQuarter_doublets s rng hg hp

/-! ## Holding costs (C11) -/

theorem holdingCosts_eq_sum (s : State) :
    holdingCosts s = (s.sites.map siteHoldingCharge).sum := by
  unfold holdingCosts
  have : (fun x : Site => x.secured && !x.developed && !x.underConstruction) = chargeable := rfl
  rw [this]
  induction s.sites with
  | nil => simp
  | cons x xs ih =>
    simp only [List.filter_cons, List.map_cons, List.sum_cons, siteHoldingCharge]
    split_ifs
    · simp only [List.length_cons, Nat.cast_add, Nat.cast_one, ← ih]; ring
    · simp only [← ih]; ring

theorem holdingCosts_of_forall₂ (l l1 : List Site)
    (h : List.Forall₂ (fun x y : Site => y.underConstruction = x.underConstruction ∧
        y.secured = x.secured ∧ y.developed = x.developed ∧ y.id = x.id ∧
        (x.takenByCompetitor = true → y.takenByCompetitor = true)) l l1) :
    (l1.filter chargeable).length = (l.filter chargeable).length :=
  filter_length_of_forall₂ chargeable _
    (fun a b hab => by simp [chargeable, hab.1, hab.2.1, hab.2.2.1]) l l1 h

theorem advanceQuarter_holdingCosts (s : State) (rng : Nat → ℚ) :
    holdingCosts (advanceQuarter s rng).1 = holdingCosts s := by
  have hc : ∀ t : State, holdingCosts t = ((t.sites.filter chargeable).length : ℚ)
      * (HOLDING_COST / 4) := fun _ => rfl
  rw [hc, hc]
  rcases advanceQuarter_sites s rng with h | ⟨i, h⟩
  · rw [h]
  · rw [h, holdingCosts_of_forall₂ _ _ (competitorSites_forall₂ rng s.sites i)]

/-- C11 (counterexample). In `drillingState` a tick executes (game not over, no
event pending) and exactly one site is secured and not developed (site 0, under
construction), yet the holding cost of the tick is 0, not 0.075. -/
theorem holding_cost_skips_construction :
    drillingState.gameOver = false ∧ drillingState.pendingEvent = none ∧
    (drillingState.sites.filter fun x => x.secured && !x.developed).length = 1 ∧
    holdingCosts drillingState = 0 ∧
    holdingCosts drillingState ≠ (HOLDING_COST / 4) *
      ((drillingState.sites.filter fun x => x.secured && !x.developed).length : ℚ) := by
  have h1 : (drillingState.sites.filter fun x => x.secured && !x.developed).length = 1 := by
    norm_num [drillingState, startDevelopment, secureSite, initialState, generateSites, mkSite,
      siteNames, siteColors, List.enum, List.enumFrom, SECURE_COST, activeCount, MAX_DOUBLETS,
      createInitialDoublet, DRILLING_FAILURE_RATE, CONSTRUCTION_DELAY, List.filter]
  have h2 : holdingCosts drillingState = 0 := by
    norm_num [holdingCosts, drillingState, startDevelopment, secureSite, initialState,
      generateSites, mkSite, siteNames, siteColors, List.enum, List.enumFrom, SECURE_COST,
      activeCount, MAX_DOUBLETS, createInitialDoublet, DRILLING_FAILURE_RATE,
      CONSTRUCTION_DELAY, List.filter]
  refine ⟨?_, ?_, h1, h2, ?_⟩
  · norm_num [drillingState, startDevelopment, secureSite, initialState, generateSites, mkSite,
      siteNames, siteColors, List.enum, List.enumFrom, SECURE_COST, activeCount, MAX_DOUBLETS,
      createInitialDoublet, DRILLING_FAILURE_RATE, CONSTRUCTION_DELAY]
  · norm_num [drillingState, startDevelopment, secureSite, initialState, generateSites, mkSite,
      siteNames, siteColors, List.enum, List.enumFrom, SECURE_COST, activeCount, MAX_DOUBLETS,
      createInitialDoublet, DRILLING_FAILURE_RATE, CONSTRUCTION_DELAY]
  · rw [h1, h2]; norm_num [HOLDING_COST]

/-- C11 (amended). In every executed tick the holding cost subtracted from cash
is `HOLDING_COST / 4 = 0.075` times the number of sites that are secured, not
developed and not under construction; it is the sum of the sites' shares
(`siteHoldingCharge`); a tick does not change the holding cost of the next tick;
and a site that is secured, not developed and not under construction at each of
four ticks is charged `HOLDING_COST = 0.3` in total. -/
theorem holding_cost_per_tick (s : State) (rng : Nat → ℚ)
    (hg : s.gameOver = false) (hp : s.pendingEvent = none) :
    (advanceQuarter s rng).1.cash =
      s.cash + ((s.doublets.filter fun d => !d.abandoned).map
        fun d => claimRevenue s d - claimCost s d).sum - holdingCosts s ∧
    holdingCosts s = (HOLDING_COST / 4) *
      ((s.sites.filter fun x => x.secured && !x.developed && !x.underConstruction).length : ℚ) ∧
    HOLDING_COST / 4 = 0.075 ∧
    holdingCosts s = (s.sites.map siteHoldingCharge).sum ∧
    holdingCosts (advanceQuarter s rng).1 = holdingCosts s ∧
    (∀ x0 x1 x2 x3 : Site, chargeable x0 = true → chargeable x1 = true →
      chargeable x2 = true → chargeable x3 = true →
      siteHoldingCharge x0 + siteHoldingCharge x1 + siteHoldingCharge x2 + siteHoldingCharge x3
        = HOLDING_COST ∧ HOLDING_COST = 0.3) := by
  refine ⟨?_, ?_, by norm_num [HOLDING_COST], holdingCosts_eq_sum s,
    advanceQuarter_holdingCosts s rng, ?_⟩
  · rw [advanceQuarter_cash s rng hg hp, tickDoublets_netCash]; ring
  · unfold holdingCosts; ring
  · intro x0 x1 x2 x3 h0 h1 h2 h3
    simp only [siteHoldingCharge, h0, h1, h2, h3, if_true]
    norm_num [HOLDING_COST]

/-- Witness for C11 (amended): `securedState`, where site 0 is secured and nothing
is under construction, so the tick's holding cost is one share. -/
theorem holding_cost_per_tick_witness :
    securedState.gameOver = false ∧ securedState.pendingEvent = none ∧
    holdingCosts securedState = (HOLDING_COST / 4) *
      ((securedState.sites.filter
        fun x => x.secured && !x.developed && !x.underConstruction).length : ℚ) ∧
    holdingCosts (advanceQuarter securedState fun _ => 1 / 2).1 = holdingCosts securedState :=
  have hg : securedState.gameOver = false := by
    norm_num [securedState, secureSite, initialState, generateSites, mkSite,
      siteNames, siteColors, List.enum, List.enumFrom, SECURE_COST]
  have hp : securedState.pendingEvent = none := by
    norm_num [securedState, secureSite, initialState, generateSites, mkSite,
      siteNames, siteColors, List.enum, List.enumFrom, SECURE_COST]
  ⟨hg, hp, (holding_cost_per_tick securedState (fun _ => 1 / 2) hg hp).2.1,
    (holding_cost_per_tick securedState (fun _ => 1 / 2) hg hp).2.2.2.2.1⟩

/-! ## Bankruptcy (C12) -/

theorem newCash_eq (s : State) (rng : Nat → ℚ) :
    newCash s rng = s.cash + ((s.doublets.filter fun d => !d.abandoned).map
      fun d => claimRevenue s d - claimCost s d).sum - holdingCosts s := by
  rw [newCash, tickDoublets_netCash]; ring

theorem exhausted_false_of_available (s : State) (rng : Nat → ℚ) (x : Site) (hx : x ∈ s.sites)
    (hd : x.developed = false) (ht : x.takenByCompetitor = false) : exhausted s rng = false := by
  have hmem : x ∈ s.sites.filter fun x => !x.developed && !x.takenByCompetitor := by
    simp [List.mem_filter, hx, hd, ht]
  have hpos := List.length_pos_of_mem hmem
  simp only [exhausted, decide_eq_false_iff_not, not_and]
  intro _
  omega

/-- C12. For an executed tick, with `newCash` the balance it computes (and
stores): if `newCash < -10` the tick sets `gameOver` and speed 0; if
`newCash ≥ -10` (including exactly -10) and the exhaustion test fails, `gameOver`
stays false.  So, exhaustion aside, the tick ends the game exactly when its
resulting cash is below -10; and once `gameOver` is set every later
`advanceQuarter` returns the state unchanged. -/
theorem bankruptcy_on_crossing (s : State) (rng : Nat → ℚ)
    (hg : s.gameOver = false) (hp : s.pendingEvent = none) :
    (advanceQuarter s rng).1.cash = newCash s rng ∧
    (newCash s rng < -10 →
      (advanceQuarter s rng).1.gameOver = true ∧ (advanceQuarter s rng).1.speed = 0) ∧
    (-10 ≤ newCash s rng → exhausted s rng = false →
      (advanceQuarter s rng).1.gameOver = false) ∧
    (exhausted s rng = false →
      ((advanceQuarter s rng).1.gameOver = true ↔ (advanceQuarter s rng).1.cash < -10)) ∧
    ((advanceQuarter s rng).1.gameOver = true →
      ∀ rng1, advanceQuarter (advanceQuarter s rng).1 rng1 = ((advanceQuarter s rng).1, 0)) := by
  have hc := advanceQuarter_cash_eq_newCash s rng hg hp
  have hgo := advanceQuarter_gameOver s rng hg hp
  refine ⟨hc, ?_, ?_, ?_, ?_⟩
  · intro h
    have h1 : (advanceQuarter s rng).1.gameOver = true := by rw [hgo]; simp [h]
    exact ⟨h1, advanceQuarter_speed_of_gameOver s rng hg hp h1⟩
  · intro h he
    rw [hgo, he]
    simp [not_lt.2 h]
  · intro he
    rw [hgo, he, hc]
    simp
  · intro h rng1
    exact advanceQuarter_blocked _ rng1 (by simp [h])

/-- Witness for C12: the initial state with cash -20: the tick computes
-20 + 2.644708, below -10, and ends the game. -/
theorem bankruptcy_on_crossing_witness :
    (advanceQuarter { initialState (fun _ => 0) with cash := -20 } fun _ => 1 / 2).1.gameOver
        = true ∧
    (advanceQuarter { initialState (fun _ => 0) with cash := -20 } fun _ => 1 / 2).1.speed = 0 := by
  refine (bankruptcy_on_crossing { initialState (fun _ => 0) with cash := -20 }
    (fun _ => 1 / 2) rfl rfl).2.1 ?_
  rw [newCash_eq]
  have hh : holdingCosts { initialState (fun _ => 0) with cash := -20 } = 0 :=
    holdingCosts_initial fun _ => 0
  have hd : ({ initialState (fun _ => 0) with cash := -20 } : State).doublets
      = [createInitialDoublet] := rfl
  have ha : createInitialDoublet.abandoned = false := rfl
  rw [hh, hd]
  simp only [List.filter_cons, ha, Bool.not_false, if_true, List.filter_nil, List.map_cons,
    List.map_nil, List.sum_cons, List.sum_nil]
  norm_num [claimRevenue, claimHeatOutput, claimCost, initialState, createInitialDoublet,
    SEASONAL_MULTIPLIER]

/-! ## Exhaustion (C13) -/

theorem scanEvents_takeRng : scanEvents takeRng 0 triggerableEvents = (none, 3) := by
  norm_num [scanEvents, triggerableEvents, takeRng]

theorem newDoublets_lastSiteState :
    newDoublets lastSiteState takeRng = [{ createInitialDoublet with abandoned := true }] := by
  simp [newDoublets, lastSiteState, tickDoublets]

/-- C13 (evaluation at the failing input). From `lastSiteState` a tick executes;
its competitor draw takes site 0, the last available site.  In the state the tick
produces no doublet in operation has heat output above 0 and no site is both not
developed and not taken, yet `gameOver` is still false: the test read the sites
captured before the competitor's move.  The following tick raises it. -/
theorem exhaustion_one_tick_late :
    lastSiteState.gameOver = false ∧ lastSiteState.pendingEvent = none ∧
    ((advanceQuarter lastSiteState takeRng).1.doublets.filter
      fun d => !d.abandoned && decide (getHeatOutput d > 0)) = [] ∧
    ((advanceQuarter lastSiteState takeRng).1.sites.filter
      fun x => !x.developed && !x.takenByCompetitor) = [] ∧
    (advanceQuarter lastSiteState takeRng).1.gameOver = false ∧
    (advanceQuarter (advanceQuarter lastSiteState takeRng).1 takeRng).1.gameOver = true := by
  have hg : lastSiteState.gameOver = false := rfl
  have hp : lastSiteState.pendingEvent = none := rfl
  have hq : ¬ lastSiteState.quarter = 3 := by simp [lastSiteState, initialState]
  have hd : (advanceQuarter lastSiteState takeRng).1.doublets =
      [{ createInitialDoublet with abandoned := true }] := by
    rw [advanceQuarter_doublets_eq _ _ hg hp, if_neg hq, newDoublets_lastSiteState]
  have hs : ((advanceQuarter lastSiteState takeRng).1.sites.filter
      fun x => !x.developed && !x.takenByCompetitor) = [] := by
    rw [advanceQuarter_sites_eq _ _ hg hp, scanEvents_takeRng]
    norm_num [lastSiteState, initialState, generateSites, mkSite, siteNames, siteColors,
      List.enum, List.enumFrom, competitorSites, takeable, takeRng, COMPETITOR_TAKE_CHANCE,
      List.filter]
  have hgo : (advanceQuarter lastSiteState takeRng).1.gameOver = false := by
    rw [advanceQuarter_gameOver _ _ hg hp]
    have h1 : exhausted lastSiteState takeRng = false :=
      exhausted_false_of_available _ _ (mkSite (fun _ => 0) 0 "A" "#e74c3c")
        (by simp [lastSiteState, initialState, generateSites, mkSite, siteNames, siteColors,
              List.enum, List.enumFrom]) rfl rfl
    have h2 : newCash lastSiteState takeRng = 15 := by
      rw [newCash_eq]
      have : holdingCosts lastSiteState = 0 := by
        norm_num [holdingCosts, lastSiteState, initialState, generateSites, mkSite, siteNames,
          siteColors, List.enum, List.enumFrom, List.filter]
      rw [this]
      norm_num [lastSiteState, initialState, createInitialDoublet]
    rw [h1, h2]
    norm_num
  have hp1 : (advanceQuarter lastSiteState takeRng).1.pendingEvent = none := by
    rw [advanceQuarter_pendingEvent _ _ hg hp, scanEvents_takeRng]
  refine ⟨hg, hp, ?_, hs, hgo, ?_⟩
  · rw [hd]; simp
  · rw [advanceQuarter_gameOver _ _ hgo hp1]
    have : exhausted (advanceQuarter lastSiteState takeRng).1 takeRng = true := by
      have hnd : newDoublets (advanceQuarter lastSiteState takeRng).1 takeRng =
          [{ createInitialDoublet with abandoned := true }] := by
        simp [newDoublets, hd, tickDoublets]
      simp [exhausted, hnd, hs]
    rw [this]; simp

/-! ## The event handler and competitor takes (C15) -/

theorem handleEventChoice_affordable (s : State) (ev : GameEvent) (k : Nat) (c : Choice)
    (hev : s.pendingEvent = some ev) (hc : ev.choices[k]? = some c) (hcash : c.cost ≤ s.cash) :
    handleEventChoice s k =
      { applyEffect { s with cash := s.cash - c.cost } c.effect with pendingEvent := none } := by
  simp only [handleEventChoice, hev, hc, ge_iff_le, hcash, if_true]

theorem handleEventChoice_unaffordable (s : State) (ev : GameEvent) (k : Nat) (c : Choice)
    (hev : s.pendingEvent = some ev) (hc : ev.choices[k]? = some c) (hcash : s.cash < c.cost) :
    handleEventChoice s k = { s with pendingEvent := none } := by
  simp only [handleEventChoice, hev, hc, ge_iff_le, not_le.2 hcash, if_false]

theorem checkConstructionComplete_sites_of_done (snap cur : State)
    (h : (snap.sites.filter (completes snap)).isEmpty = false) :
    (checkConstructionComplete snap cur).sites =
      snap.sites.map fun site => if completes snap site then completedSite site else site := by
  simp only [checkConstructionComplete, h, Bool.false_eq_true, if_false]

/-- C15 (evaluation at the failing input). From `yearEndState` the tick's
competitor draw takes site 1, so after `advanceQuarter` site 1 has
`takenByCompetitor = true`.  The construction pass deferred by that tick then
completes site 0 and writes back the sites it captured before the tick: after the
tick and its deferred pass (`tick`) site 1 has `takenByCompetitor = false` again.
The effect's passes in between do not change that (`firing_clears_taken`). -/
theorem deferred_construction_clears_taken :
    yearEndState.gameOver = false ∧ yearEndState.pendingEvent = none ∧
    ((advanceQuarter yearEndState takeRng).1.sites[1]?).map (fun x => x.takenByCompetitor)
      = some true ∧
    tick yearEndState takeRng
      = checkConstructionComplete yearEndState (advanceQuarter yearEndState takeRng).1 ∧
    ((tick yearEndState takeRng).sites[1]?).map (fun x => x.takenByCompetitor) = some false := by
  have hg : yearEndState.gameOver = false := rfl
  have hp : yearEndState.pendingEvent = none := rfl
  have ht : tick yearEndState takeRng
      = checkConstructionComplete yearEndState (advanceQuarter yearEndState takeRng).1 := by
    have hq : yearEndState.quarter = 3 := rfl
    simp only [tick, hg, hp, hq, Option.isSome_none, Bool.or_self, Bool.not_false,
      decide_True, Bool.and_self, if_true]
  refine ⟨hg, hp, ?_, ht, ?_⟩
  · rw [advanceQuarter_sites_eq _ _ hg hp, scanEvents_takeRng]
    norm_num [yearEndState, initialState, generateSites, mkSite, siteNames, siteColors,
      List.enum, List.enumFrom, competitorSites, takeable, takeRng, COMPETITOR_TAKE_CHANCE]
  · rw [ht, checkConstructionComplete_sites_of_done]
    · norm_num [yearEndState, initialState, generateSites, mkSite, siteNames, siteColors,
        List.enum, List.enumFrom, completes, completedSite]
    · norm_num [yearEndState, initialState, generateSites, mkSite, siteNames, siteColors,
        List.enum, List.enumFrom, completes, List.filter]

/-! ## Abandoned doublets (C16) -/

theorem competitorSites_frame (rng : Nat → ℚ) (l : List Site) :
    ∀ i, List.Forall₂ (fun x y : Site => y = x ∨
        (takeable x = true ∧ y = { x with takenByCompetitor := true } ∧
          ∃ n, rng n < COMPETITOR_TAKE_CHANCE / 4))
      l (competitorSites rng i l).1 := by
  induction l with
  | nil => intro i; simp [competitorSites]
  | cons y ys ih =>
    intro i
    unfold competitorSites
    split_ifs with h1 h2
    · exact List.Forall₂.cons (Or.inr ⟨h1, rfl, i, h2⟩) (ih _)
    · exact List.Forall₂.cons (Or.inl rfl) (ih _)
    · exact List.Forall₂.cons (Or.inl rfl) (ih _)

theorem taken_site_rejected (s : State) (i : Nat) (x : Site) (hx : s.sites[i]? = some x)
    (ht : x.takenByCompetitor = true) (hok : StatusOk x) :
    (∀ L, investigateSite s i L = s) ∧ secureSite s i = s ∧
      ∀ f r, startDevelopment s i f r = s := by
  have hsec : x.secured = false := by
    have := (statusOk_iff x).1 hok
    cases h : x.secured
    · rfl
    · exact absurd ht (by simp [(this.1 h).2])
  refine ⟨fun L => investigateSite_rejected s i L x hx (Or.inr (Or.inl ht)), ?_, fun f r => ?_⟩
  · simp [secureSite, hx, ht]
  · simp [startDevelopment, hx, hsec]

theorem forall₂_getElem? {α : Type} {R : α → α → Prop} {l l1 : List α}
    (h : List.Forall₂ R l l1) :
    ∀ (k : Nat) (a : α), l[k]? = some a → ∃ b, l1[k]? = some b ∧ R a b := by
  induction h with
  | nil => intro k a ha; simp at ha
  | cons hab _ ih =>
    intro k a ha
    cases k with
    | zero =>
      simp only [List.getElem?_cons_zero, Option.some.injEq] at ha
      subst ha
      exact ⟨_, by simp, hab⟩
    | succ j =>
      simp only [List.getElem?_cons_succ] at ha ⊢
      exact ih j a ha

theorem abandoned_functions (s : State) (d : Doublet) (r : ℚ) (h : d.abandoned = true) :
    getHeatOutput d = 0 ∧ getQuarterlyHeat d = 0 ∧ getQuarterlyRevenue s d = 0 ∧
      getQuarterlyOperatingCost s d = 0 ∧ getNewTemperature d r = d.currentTemp := by
  simp [getHeatOutput, getQuarterlyHeat, getQuarterlyRevenue, getQuarterlyOperatingCost,
    getNewTemperature, h]

theorem advanceQuarter_keepsAbandoned (s : State) (rng : Nat → ℚ) :
    KeepsAbandoned s (advanceQuarter s rng).1 := by
  have key : List.Forall₂ (fun d d1 : Doublet => d.abandoned = true → d1 = d)
      s.doublets (advanceQuarter s rng).1.doublets := by
    by_cases hb : (s.gameOver || s.pendingEvent.isSome) = true
    · rw [advanceQuarter_blocked s rng hb]
      exact List.forall₂_same.2 fun d _ _ => rfl
    · have hb1 := (not_blocked_iff s).1 (by simpa using hb)
      rw [advanceQuarter_doublets s rng hb1.1 hb1.2]
      have k1 := tickDoublets_forall₂ s rng (fun d d1 : Doublet => d.abandoned = true → d1 = d)
        (fun d r _ hd => by simp [tickDoublet, hd]) s.doublets (tempDrawStart s rng) 0
      split_ifs
      · rw [List.forall₂_map_right_iff]
        refine k1.imp fun d d1 h hd => ?_
        rw [h hd]
        simp [archiveDoublet, hd]
      · exact k1
  intro k d hk hd
  obtain ⟨b, hb, hR⟩ := forall₂_getElem? key k d hk
  rw [hb, hR hd]

theorem checkConstructionComplete_keepsAbandoned (snap cur : State)
    (h : KeepsAbandoned snap cur) : KeepsAbandoned snap (checkConstructionComplete snap cur) := by
  intro k d hk hd
  simp only [checkConstructionComplete]
  split_ifs
  · exact h k d hk hd
  · have hlt : k < snap.doublets.length := by
      rw [List.getElem?_eq_some] at hk; exact hk.1
    simp only [List.getElem?_append_left hlt]
    exact hk

theorem tick_keepsAbandoned (s : State) (rng : Nat → ℚ) : KeepsAbandoned s (tick s rng) := by
  unfold tick
  simp only
  split_ifs
  · exact checkConstructionComplete_keepsAbandoned s _ (advanceQuarter_keepsAbandoned s rng)
  · exact advanceQuarter_keepsAbandoned s rng

theorem abandonDoublet_getElem? (s : State) (id k : Nat) (d : Doublet)
    (hk : s.doublets[k]? = some d) :
    (abandonDoublet s id).doublets[k]? =
      some (if d.id = id then { d with abandoned := true } else d) := by
  simp [abandonDoublet, List.getElem?_map, hk]

theorem investigateSite_doublets (s : State) (i : Nat) (L : Level) :
    (investigateSite s i L).doublets = s.doublets := by
  unfold investigateSite
  split
  · rfl
  · split_ifs <;> rfl

theorem secureSite_doublets (s : State) (i : Nat) :
    (secureSite s i).doublets = s.doublets := by
  unfold secureSite
  split
  · rfl
  · split_ifs <;> rfl

theorem startDevelopment_doublets (s : State) (i : Nat) (f r : ℚ) :
    (startDevelopment s i f r).doublets = s.doublets := by
  unfold startDevelopment
  split
  · rfl
  · split_ifs <;> rfl

theorem foldl_heat_eq_sum (l : List Doublet) :
    ∀ a : ℚ, l.foldl (fun sum d => sum + (if d.abandoned then 0 else getQuarterlyHeat d)) a
      = a + ((l.filter fun d => !d.abandoned).map getQuarterlyHeat).sum := by
  induction l with
  | nil => intro a; simp
  | cons d ds ih =>
    intro a
    simp only [List.foldl_cons, ih, List.filter_cons]
    cases hd : d.abandoned
    · simp only [Bool.false_eq_true, if_false, Bool.not_false, if_true, List.map_cons,
        List.sum_cons]
      ring
    · simp

theorem keepsAbandoned_trans (s t u : State) (h1 : KeepsAbandoned s t)
    (h2 : KeepsAbandoned t u) : KeepsAbandoned s u :=
  fun k d hk hd => h2 k d (h1 k d hk hd) hd

theorem effectLoop_keepsAbandoned (n : Nat) : ∀ t : State, KeepsAbandoned t (effectLoop n t) := by
  induction n with
  | zero => intro t k d hk _; exact hk
  | succ n ih =>
    intro t
    unfold effectLoop
    split_ifs
    · exact fun k d hk _ => hk
    · exact keepsAbandoned_trans _ _ _
        (checkConstructionComplete_keepsAbandoned t t fun k d hk _ => hk) (ih _)
    · exact fun k d hk _ => hk

/-- The whole firing, the effect's passes included, keeps every abandoned doublet
with its record unchanged. -/
theorem firing_keepsAbandoned (s : State) (rng : Nat → ℚ) : KeepsAbandoned s (firing s rng) := by
  have h1 := advanceQuarter_keepsAbandoned s rng
  have h2 : KeepsAbandoned s (effectPass (advanceQuarter s rng).1) :=
    keepsAbandoned_trans _ _ _ h1 (effectLoop_keepsAbandoned _ _)
  unfold firing
  simp only
  split_ifs
  · exact h1
  · exact keepsAbandoned_trans _ _ _
      (checkConstructionComplete_keepsAbandoned s _ h2) (effectLoop_keepsAbandoned _ _)
  · exact h2

/-- C16. For an abandoned doublet `getHeatOutput`, `getQuarterlyHeat`,
`getQuarterlyRevenue` and `getQuarterlyOperatingCost` are 0 and
`getNewTemperature` is its `currentTemp`.  `advanceQuarter` keeps every abandoned
doublet's record as it is, and the cash and cumulative heat it stores are sums
over the doublets that are not abandoned.  `abandonDoublet` sets `abandoned` on
the doublets with the given id, keeps every other doublet and every other field;
and `investigateSite`, `secureSite`, `startDevelopment`, `abandonDoublet`,
`handleEventChoice`, `advanceQuarter`, a construction pass, the tick with the pass
it defers (`tick`) and the whole timer firing with the effect's passes (`firing`)
keep every abandoned doublet abandoned, with its record unchanged. -/
theorem abandoned_doublet_frozen (s : State) :
    (∀ (d : Doublet) (r : ℚ), d.abandoned = true →
      getHeatOutput d = 0 ∧ getQuarterlyHeat d = 0 ∧ getQuarterlyRevenue s d = 0 ∧
        getQuarterlyOperatingCost s d = 0 ∧ getNewTemperature d r = d.currentTemp) ∧
    (∀ rng, KeepsAbandoned s (advanceQuarter s rng).1) ∧
    (∀ rng, s.gameOver = false → s.pendingEvent = none →
      (advanceQuarter s rng).1.cash =
        s.cash + ((s.doublets.filter fun d => !d.abandoned).map
          fun d => claimRevenue s d - claimCost s d).sum - holdingCosts s ∧
      (advanceQuarter s rng).1.totalHeatDelivered =
        s.totalHeatDelivered +
          (((newDoublets s rng).filter fun d => !d.abandoned).map getQuarterlyHeat).sum) ∧
    (∀ (id k : Nat) (d : Doublet), s.doublets[k]? = some d →
      (abandonDoublet s id).doublets[k]? =
        some (if d.id = id then { d with abandoned := true } else d)) ∧
    (∀ id, { abandonDoublet s id with doublets := s.doublets } = s) ∧
    (∀ i L, KeepsAbandoned s (investigateSite s i L)) ∧
    (∀ i, KeepsAbandoned s (secureSite s i)) ∧
    (∀ i f r, KeepsAbandoned s (startDevelopment s i f r)) ∧
    (∀ id, KeepsAbandoned s (abandonDoublet s id)) ∧
    (∀ k, KeepsAbandoned s (handleEventChoice s k)) ∧
    KeepsAbandoned s (checkConstructionComplete s s) ∧
    (∀ rng, KeepsAbandoned s (tick s rng)) ∧
    (∀ rng, KeepsAbandoned s (firing s rng)) := by
  have hrefl : KeepsAbandoned s s := fun _ _ hk _ => hk
  refine ⟨fun d r h => abandoned_functions s d r h, advanceQuarter_keepsAbandoned s, ?_,
    fun id k d hk => abandonDoublet_getElem? s id k d hk, fun _ => rfl, ?_, ?_, ?_, ?_, ?_,
    checkConstructionComplete_keepsAbandoned s s hrefl, tick_keepsAbandoned s,
    firing_keepsAbandoned s⟩
  · intro rng hg hp
    refine ⟨?_, ?_⟩
    · rw [advanceQuarter_cash s rng hg hp, tickDoublets_netCash]; ring
    · rw [advanceQuarter_totalHeat s rng hg hp, quarterlyHeat, foldl_heat_eq_sum]; ring
  · intro i L k d hk _
    rw [investigateSite_doublets]; exact hk
  · intro i k d hk _
    rw [secureSite_doublets]; exact hk
  · intro i f r k d hk _
    rw [startDevelopment_doublets]; exact hk
  · intro id k d hk hd
    rw [abandonDoublet_getElem? s id k d hk]
    split_ifs
    · cases d; simp_all
    · rfl
  · intro k j d hk _
    rw [(handleEventChoice_sites s k).2]; exact hk

/-- Witness for C16: the state with the legacy doublet abandoned (`lastSiteState`):
a tick leaves the doublet's record as it is and adds no heat. -/
theorem abandoned_doublet_frozen_witness :
    (advanceQuarter lastSiteState takeRng).1.doublets[0]?
      = some { createInitialDoublet with abandoned := true } ∧
    (advanceQuarter lastSiteState takeRng).1.totalHeatDelivered
      = lastSiteState.totalHeatDelivered :=
  ⟨(abandoned_doublet_frozen lastSiteState).2.1 takeRng 0 _ rfl rfl,
   by
    rw [((abandoned_doublet_frozen lastSiteState).2.2.1 takeRng rfl rfl).2,
      newDoublets_lastSiteState]
    simp⟩

/-! ## Year rollover in `advanceQuarter` and bounded histories -/

theorem slice15_length (xs : List Entry) : (slice15 xs).length = min 15 xs.length := by
  simp only [slice15, List.length_drop]
  omega

theorem slice15_length_le (xs : List Entry) : (slice15 xs).length ≤ 15 := by
  rw [slice15_length]; exact min_le_left _ _

theorem slice15_suffix (xs : List Entry) : slice15 xs <:+ xs := List.drop_suffix _ _

theorem tickDoublet_histories (s : State) (d : Doublet) (r : ℚ) :
    SameHistories d (tickDoublet s d r) := by
  unfold tickDoublet
  split_ifs <;> exact ⟨rfl, rfl, rfl⟩

theorem archive_tickDoublet (s : State) (d : Doublet) (r : ℚ) (hd : d.abandoned = false) :
    Archived s d (archiveDoublet s.year (tickDoublet s d r)) := by
  simp [Archived, archiveDoublet, tickDoublet, hd]

theorem advanceQuarter_archives (s : State) (rng : Nat → ℚ)
    (hg : s.gameOver = false) (hp : s.pendingEvent = none) (hq : s.quarter = 3) :
    List.Forall₂ (fun d d1 : Doublet => d.abandoned = false → Archived s d d1)
      s.doublets (advanceQuarter s rng).1.doublets := by
  rw [advanceQuarter_doublets s rng hg hp, if_pos hq, List.forall₂_map_right_iff]
  exact tickDoublets_forall₂ s rng _
    (fun d r _ hd => archive_tickDoublet s d r hd) s.doublets _ _

theorem advanceQuarter_keeps_histories (s : State) (rng : Nat → ℚ)
    (hg : s.gameOver = false) (hp : s.pendingEvent = none) (hq : s.quarter ≠ 3) :
    List.Forall₂ SameHistories s.doublets (advanceQuarter s rng).1.doublets := by
  rw [advanceQuarter_doublets s rng hg hp, if_neg hq]
  exact tickDoublets_forall₂ s rng _ (fun d r _ => tickDoublet_histories s d r) s.doublets _ _

theorem forall₂_mem_right {α : Type} {R : α → α → Prop} {l l1 : List α}
    (h : List.Forall₂ R l l1) : ∀ b ∈ l1, ∃ a ∈ l, R a b := by
  induction h with
  | nil => intro b hb; simp at hb
  | cons hab _ ih =>
    intro b hb
    rcases List.mem_cons.1 hb with rfl | hb
    · exact ⟨_, List.mem_cons_self _ _, hab⟩
    · obtain ⟨a, ha, hR⟩ := ih b hb
      exact ⟨a, List.mem_cons_of_mem _ ha, hR⟩

theorem advanceQuarter_historyBounded (s : State) (rng : Nat → ℚ) (h : HistoryBounded s) :
    HistoryBounded (advanceQuarter s rng).1 := by
  by_cases hb : (s.gameOver || s.pendingEvent.isSome) = true
  · rw [advanceQuarter_blocked s rng hb]; exact h
  · obtain ⟨hg, hp⟩ := (not_blocked_iff s).1 (by simpa using hb)
    obtain ⟨h1, h2, h3, h4⟩ := h
    have hq := (advanceQuarter_quarter s rng hg hp).1
    have hh := advanceQuarter_histories s rng hg hp
    refine ⟨?_, ?_, ?_, ?_⟩
    · rw [hq]; split_ifs <;> omega
    · rw [hh.1]; split_ifs
      · exact slice15_length_le _
      · exact h2
    · rw [hh.2]; split_ifs
      · exact slice15_length_le _
      · exact h3
    · intro d1 hd1
      by_cases hq3 : s.quarter = 3
      · have key : List.Forall₂ (fun d d1 : Doublet =>
            d1.tempHistory.length ≤ 15 ∧ d1.cashHistory.length ≤ 15 ∧
              d1.heatHistory.length ≤ 15 ∨ (d.abandoned = true ∧ d1 = d))
            s.doublets (advanceQuarter s rng).1.doublets := by
          rw [advanceQuarter_doublets s rng hg hp, if_pos hq3, List.forall₂_map_right_iff]
          refine tickDoublets_forall₂ s rng _ (fun d r _ => ?_) s.doublets _ _
          cases hd : d.abandoned
          · left
            obtain ⟨a, b, c, -, -⟩ := archive_tickDoublet s d r hd
            rw [a, b, c]
            exact ⟨slice15_length_le _, slice15_length_le _, slice15_length_le _⟩
          · right
            simp [archiveDoublet, tickDoublet, hd]
        obtain ⟨d, hd, hR⟩ := forall₂_mem_right key d1 hd1
        rcases hR with hR | ⟨_, rfl⟩
        · exact hR
        · exact h4 _ hd
      · obtain ⟨d, hd, hR⟩ :=
          forall₂_mem_right (advanceQuarter_keeps_histories s rng hg hp hq3) d1 hd1
        rw [hR.1, hR.2.1, hR.2.2]
        exact h4 d hd

theorem checkConstructionComplete_historyBounded (snap cur : State)
    (hs : HistoryBounded snap) (hc : HistoryBounded cur) :
    HistoryBounded (checkConstructionComplete snap cur) := by
  simp only [checkConstructionComplete]
  split_ifs
  · exact hc
  · refine ⟨hc.1, hc.2.1, hc.2.2.1, ?_⟩
    intro d hd
    simp only [List.mem_append, List.mem_map] at hd
    rcases hd with hd | ⟨x, -, rfl⟩
    · exact hs.2.2.2 d hd
    · simp [newDoublet]

theorem handleEventChoice_historyBounded (s : State) (k : Nat) (h : HistoryBounded s) :
    HistoryBounded (handleEventChoice s k) := by
  unfold handleEventChoice
  split
  · exact h
  · split
    · exact h
    · rename_i choice _
      split_ifs
      · cases choice.effect <;> exact h
      · exact h

theorem investigateSite_historyBounded (s : State) (i : Nat) (L : Level)
    (h : HistoryBounded s) : HistoryBounded (investigateSite s i L) := by
  unfold investigateSite
  split
  · exact h
  · split_ifs <;> exact h

theorem secureSite_historyBounded (s : State) (i : Nat)
    (h : HistoryBounded s) : HistoryBounded (secureSite s i) := by
  unfold secureSite
  split
  · exact h
  · split_ifs <;> exact h

theorem startDevelopment_historyBounded (s : State) (i : Nat) (f r : ℚ)
    (h : HistoryBounded s) : HistoryBounded (startDevelopment s i f r) := by
  unfold startDevelopment
  split
  · exact h
  · split_ifs <;> exact h

theorem abandonDoublet_historyBounded (s : State) (id : Nat)
    (h : HistoryBounded s) : HistoryBounded (abandonDoublet s id) := by
  refine ⟨h.1, h.2.1, h.2.2.1, ?_⟩
  intro d hd
  simp only [abandonDoublet, List.mem_map] at hd
  obtain ⟨a, ha, rfl⟩ := hd
  split_ifs <;> exact h.2.2.2 a ha

theorem competitorAction_historyBounded (s : State) (rng : Nat → ℚ) (i : Nat)
    (h : HistoryBounded s) : HistoryBounded (competitorAction s s rng i).1 := by
  simp only [competitorAction]
  split_ifs <;> exact h

theorem reachable_historyBounded (s : State) (h : Reachable s) : HistoryBounded s := by
  induction h with
  | init rng =>
    refine ⟨by simp [initialState], by simp [initialState], by simp [initialState], ?_⟩
    intro d hd
    simp only [initialState, List.mem_singleton] at hd
    subst hd
    simp [createInitialDoublet]
  | investigate i L _ ih => exact investigateSite_historyBounded _ i L ih
  | secure i _ ih => exact secureSite_historyBounded _ i ih
  | develop i f r _ ih => exact startDevelopment_historyBounded _ i f r ih
  | abandon id _ ih => exact abandonDoublet_historyBounded _ id ih
  | choose k _ ih => exact handleEventChoice_historyBounded _ k ih
  | competitor rng i _ ih => exact competitorAction_historyBounded _ rng i ih
  | advance rng _ ih => exact advanceQuarter_historyBounded _ rng ih
  | construction _ _ ih1 ih2 => exact checkConstructionComplete_historyBounded _ _ ih1 ih2

/-- What `advanceQuarter` itself queues at the end of a quarter (lines 298-322,
without the pass deferred at line 319).  After an executed fourth-quarter tick
(`quarter = 3`) each aggregate history is `slice15` (the last 15 entries) of the
old history followed by the entry of the closing year, each doublet in operation
is `Archived` (its three histories likewise, its yearly accumulators 0), the year
is incremented and the quarter is 0.  After any other executed tick the aggregate
and per-doublet histories are unchanged, the year is unchanged and the quarter is
incremented.  `slice15 xs` is the suffix of `xs` of length `min 15 xs.length`.  In
every reachable state the quarter is below 4 and every history has at most 15
entries.  What remains of the per-doublet part after the whole firing is the
subject of `year_end_archive_lost`. -/
theorem year_rollover (s : State) (rng : Nat → ℚ)
    (hg : s.gameOver = false) (hp : s.pendingEvent = none) :
    (s.quarter = 3 →
      (advanceQuarter s rng).1.aggregateCashHistory =
        slice15 (s.aggregateCashHistory ++
          [⟨s.year, (newDoublets s rng).foldl (fun sum d => sum + d.currentYearCash) 0
            - holdingCosts s * 4⟩]) ∧
      (advanceQuarter s rng).1.aggregateHeatHistory =
        slice15 (s.aggregateHeatHistory ++
          [⟨s.year, (newDoublets s rng).foldl (fun sum d => sum + d.currentYearHeat) 0⟩]) ∧
      List.Forall₂ (fun d d1 : Doublet => d.abandoned = false → Archived s d d1)
        s.doublets (advanceQuarter s rng).1.doublets ∧
      (advanceQuarter s rng).1.year = s.year + 1 ∧ (advanceQuarter s rng).1.quarter = 0) ∧
    (s.quarter ≠ 3 →
      (advanceQuarter s rng).1.aggregateCashHistory = s.aggregateCashHistory ∧
      (advanceQuarter s rng).1.aggregateHeatHistory = s.aggregateHeatHistory ∧
      List.Forall₂ SameHistories s.doublets (advanceQuarter s rng).1.doublets ∧
      (advanceQuarter s rng).1.year = s.year ∧
      (advanceQuarter s rng).1.quarter = s.quarter + 1) ∧
    (∀ xs : List Entry, slice15 xs <:+ xs ∧ (slice15 xs).length = min 15 xs.length) ∧
    (∀ t : State, Reachable t → HistoryBounded t) := by
  have hh := advanceQuarter_histories s rng hg hp
  have hq := advanceQuarter_quarter s rng hg hp
  refine ⟨fun h3 => ?_, fun h3 => ?_, fun xs => ⟨slice15_suffix xs, slice15_length xs⟩,
    reachable_historyBounded⟩
  · rw [if_pos h3] at hh hq
    rw [if_pos h3] at hh hq
    exact ⟨hh.1, hh.2, advanceQuarter_archives s rng hg hp h3, hq.2, hq.1⟩
  · rw [if_neg h3] at hh hq
    rw [if_neg h3] at hh hq
    exact ⟨hh.1, hh.2, advanceQuarter_keeps_histories s rng hg hp h3, hq.2, hq.1⟩

/-- An instance of `year_rollover`: a fourth-quarter `advanceQuarter` from the
initial state moved to quarter 3 ends in quarter 0 of 2026 with six entries in the
aggregate cash history. -/
theorem year_rollover_witness :
    (advanceQuarter { initialState (fun _ => 0) with quarter := 3 } fun _ => 1 / 2).1.year
      = 2026 ∧
    (advanceQuarter { initialState (fun _ => 0) with quarter := 3 } fun _ => 1 / 2).1.quarter
      = 0 ∧
    (advanceQuarter { initialState (fun _ => 0) with quarter := 3 }
      fun _ => 1 / 2).1.aggregateCashHistory.length = 6 := by
  have h := (year_rollover { initialState (fun _ => 0) with quarter := 3 } (fun _ => 1 / 2)
    rfl rfl).1 rfl
  refine ⟨h.2.2.2.1, h.2.2.2.2, ?_⟩
  rw [h.1, slice15_length]
  simp [initialState]

/-! ## Cumulative heat (C18) and doublet ids (C19) -/

theorem newDoublets_initial (g : Nat → ℚ) :
    newDoublets (initialState g) (fun _ => 1 / 2) =
      [tickDoublet (initialState g) createInitialDoublet (1 / 2)] := by
  have ha : createInitialDoublet.abandoned = false := rfl
  simp [newDoublets, initialState, tickDoublets, ha]

/-- C18 (evaluation at the failing input). A tick from the initial state with
every draw 1/2 adds 33.44 to the legacy doublet's `currentYearHeat` (the quarterly
heat at the old temperature 105) and 33.022 to `totalHeatDelivered` (the quarterly
heat at the new temperature 104). -/
theorem total_heat_differs_from_doublet_heat :
    (initialState fun _ => 0).doublets.map (fun d => d.currentYearHeat) = [0] ∧
    (advanceQuarter (initialState fun _ => 0) fun _ => 1 / 2).1.doublets.map
      (fun d => d.currentYearHeat) = [33.44] ∧
    (advanceQuarter (initialState fun _ => 0) fun _ => 1 / 2).1.totalHeatDelivered
      - (initialState fun _ => 0).totalHeatDelivered = 33.022 := by
  have hg : (initialState fun _ => 0).gameOver = false := rfl
  have hp : (initialState fun _ => 0).pendingEvent = none := rfl
  have hq : ¬ (initialState fun _ => 0).quarter = 3 := by simp [initialState]
  refine ⟨by simp [initialState, createInitialDoublet], ?_, ?_⟩
  · rw [advanceQuarter_doublets_eq _ _ hg hp, if_neg hq, newDoublets_initial]
    norm_num [tickDoublet, getQuarterlyHeat, getHeatOutput, createInitialDoublet,
      REFERENCE_TEMP, HEAT_CAPACITY, HOURS_PER_YEAR]
  · rw [advanceQuarter_totalHeat _ _ hg hp, quarterlyHeat, newDoublets_initial]
    norm_num [tickDoublet, getQuarterlyHeat, getHeatOutput, getNewTemperature,
      createInitialDoublet, REFERENCE_TEMP, HEAT_CAPACITY, HOURS_PER_YEAR]

/-- C19 (evaluation at the failing input). One pass of
`checkConstructionComplete` in `twoDueState` completes sites 0 and 1 and gives both
new doublets the id 1, the `nextDoubletId` captured before the pass;
`abandonDoublet(1)` then abandons two doublets. -/
theorem same_pass_doublets_share_id :
    twoDueState.nextDoubletId = 1 ∧
    (checkConstructionComplete twoDueState twoDueState).doublets.map (fun d => (d.id, d.siteId))
      = [(0, -1), (1, 0), (1, 1)] ∧
    (checkConstructionComplete twoDueState twoDueState).nextDoubletId = 3 ∧
    ((abandonDoublet (checkConstructionComplete twoDueState twoDueState) 1).doublets.map
      fun d => d.abandoned) = [false, true, true] := by
  refine ⟨rfl, ?_, ?_, ?_⟩ <;>
  norm_num [abandonDoublet, twoDueState, checkConstructionComplete, completes, completedSite,
    newDoublet, initialState, generateSites, mkSite, siteNames, siteColors, List.enum,
    List.enumFrom, createInitialDoublet, List.filter]

/-! ## The effect of lines 337-339 and the whole firing -/

theorem checkConstructionComplete_rest (snap cur : State)
    (h : (snap.sites.filter (completes snap)).isEmpty = true) :
    checkConstructionComplete snap cur = cur := by
  simp only [checkConstructionComplete, h, if_true]

theorem checkConstructionComplete_of_done (snap cur : State)
    (h : (snap.sites.filter (completes snap)).isEmpty = false) :
    checkConstructionComplete snap cur =
      { cur with
        cash := (snap.sites.filter (completes snap)).foldl
          (fun c site => c - site.trueConstructionCost) cur.cash,
        nextDoubletId := cur.nextDoubletId + (snap.sites.filter (completes snap)).length,
        sites := snap.sites.map fun site =>
          if completes snap site then completedSite site else site,
        doublets := snap.doublets ++ (snap.sites.filter (completes snap)).map (newDoublet snap) } := by
  simp only [checkConstructionComplete, h, Bool.false_eq_true, if_false]

theorem effectLoop_rest (n : Nat) (t : State)
    (h : (t.sites.filter (completes t)).isEmpty = true) : effectLoop n t = t := by
  cases n with
  | zero => rfl
  | succ n => simp only [effectLoop, h, if_true, ite_self]

theorem effectLoop_step (n : Nat) (t : State) (hq : t.quarter = 0) (hy : t.year > 2025)
    (h : (t.sites.filter (completes t)).isEmpty = false) :
    effectLoop (n + 1) t = effectLoop n (checkConstructionComplete t t) := by
  simp only [effectLoop, hq, hy, h, and_self, if_true, Bool.false_eq_true, if_false]

theorem filter_completes_le (snap : State) (l : List Site) :
    (l.filter (completes snap)).length ≤ (l.filter fun z => z.underConstruction).length := by
  have := completed_underConstruction snap l
  omega

theorem effectLoop_rests (n : Nat) :
    ∀ t : State, (t.sites.filter fun z => z.underConstruction).length < n →
      ¬ (effectLoop n t).quarter = 0 ∨ ¬ (effectLoop n t).year > 2025 ∨
        ((effectLoop n t).sites.filter (completes (effectLoop n t))).isEmpty = true := by
  induction n with
  | zero => intro t h; omega
  | succ n ih =>
    intro t h
    by_cases hc : t.quarter = 0 ∧ t.year > 2025
    · cases hd : (t.sites.filter (completes t)).isEmpty
      · rw [effectLoop_step n t hc.1 hc.2 hd]
        apply ih
        rw [checkConstructionComplete_of_done t t hd]
        have h1 := completed_underConstruction t t.sites
        have h2 : 0 < (t.sites.filter (completes t)).length := by
          rcases hl : t.sites.filter (completes t) with _ | ⟨a, as⟩
          · rw [hl] at hd; simp at hd
          · simp
        simp only
        omega
      · rw [effectLoop_rest _ t hd]
        exact Or.inr (Or.inr hd)
    · have : effectLoop (n + 1) t = t := by simp only [effectLoop, hc, if_false]
      rw [this]
      by_cases hq : t.quarter = 0
      · exact Or.inr (Or.inl fun hy => hc ⟨hq, hy⟩)
      · exact Or.inl hq

theorem effectPass_rests (t : State) :
    ¬ (effectPass t).quarter = 0 ∨ ¬ (effectPass t).year > 2025 ∨
      ((effectPass t).sites.filter (completes (effectPass t))).isEmpty = true := by
  apply effectLoop_rests
  have := List.length_filter_le (fun z : Site => z.underConstruction) t.sites
  omega

/-! ## Event choices through the modal (C14) -/

theorem clickEventChoice_enabled (s : State) (ev : GameEvent) (i : Nat) (c : Choice)
    (hev : s.pendingEvent = some ev) (hc : ev.choices[i]? = some c) (hcash : c.cost ≤ s.cash) :
    clickEventChoice s i = handleEventChoice s i := by
  simp only [clickEventChoice, hev, hc, not_lt.2 hcash, if_false]

theorem clickEventChoice_disabled (s : State) (ev : GameEvent) (i : Nat) (c : Choice)
    (hev : s.pendingEvent = some ev) (hc : ev.choices[i]? = some c) (hcash : s.cash < c.cost) :
    clickEventChoice s i = s := by
  simp only [clickEventChoice, hev, hc, hcash, if_true]

theorem applyEffect_pendingEvent (t : State) (e : Effect) :
    (applyEffect t e).pendingEvent = t.pendingEvent := by
  cases e <;> rfl

/-- C14. While an event is pending, a click on the button of a valid choice whose
cost is at most the current cash calls `handleEventChoice`, which deducts the cost,
performs the choice's effect and then clears the pending event; the button of a
choice whose cost exceeds the current cash is disabled, so the choice applies
nothing and the event stays pending.  Hence the event is cleared exactly when the
chosen choice was affordable and has been applied.  The effects are: nothing, set
the revenue multiplier, scale the operating-cost multiplier, add cash; the catalog
uses them as nothing, revenue multiplier 0.8, operating-cost multiplier times 1.3,
cash plus 5. -/
theorem event_choice_applied_once (s : State) (ev : GameEvent) (i : Nat) (c : Choice)
    (hev : s.pendingEvent = some ev) (hc : ev.choices[i]? = some c) :
    (c.cost ≤ s.cash →
      clickEventChoice s i =
        { applyEffect { s with cash := s.cash - c.cost } c.effect with pendingEvent := none } ∧
      handleEventChoice s i = clickEventChoice s i) ∧
    (s.cash < c.cost →
      clickEventChoice s i = s ∧ (clickEventChoice s i).pendingEvent = some ev) ∧
    ((clickEventChoice s i).pendingEvent = none ↔ c.cost ≤ s.cash) ∧
    (∀ t : State, applyEffect t Effect.nothing = t) ∧
    (∀ (t : State) (v : ℚ),
      applyEffect t (Effect.setRevenueMultiplier v) = { t with revenueMultiplier := v }) ∧
    (∀ (t : State) (k : ℚ), applyEffect t (Effect.scaleOperatingCostMultiplier k) =
      { t with operatingCostMultiplier := t.operatingCostMultiplier * k }) ∧
    (∀ (t : State) (v : ℚ), applyEffect t (Effect.addCash v) = { t with cash := t.cash + v }) ∧
    (∀ e ∈ triggerableEvents, ∀ ch ∈ e.choices,
      ch.effect = Effect.nothing ∨ ch.effect = Effect.setRevenueMultiplier 0.8 ∨
        ch.effect = Effect.scaleOperatingCostMultiplier 1.3 ∨ ch.effect = Effect.addCash 5) := by
  refine ⟨fun h => ?_, fun h => ?_, ?_, fun _ => rfl, fun _ _ => rfl, fun _ _ => rfl,
    fun _ _ => rfl, ?_⟩
  · rw [clickEventChoice_enabled s ev i c hev hc h]
    exact ⟨handleEventChoice_affordable s ev i c hev hc h, rfl⟩
  · rw [clickEventChoice_disabled s ev i c hev hc h]
    exact ⟨rfl, hev⟩
  · constructor
    · intro hnone
      by_contra hlt
      rw [clickEventChoice_disabled s ev i c hev hc (not_le.1 hlt), hev] at hnone
      exact Option.some_ne_none _ hnone
    · intro h
      rw [clickEventChoice_enabled s ev i c hev hc h,
        handleEventChoice_affordable s ev i c hev hc h]
  · intro e he ch hch
    simp only [triggerableEvents, List.mem_cons, List.mem_singleton, List.not_mem_nil,
      or_false] at he
    rcases he with rfl | rfl | rfl <;>
      simp only [List.mem_cons, List.mem_singleton, List.not_mem_nil, or_false] at hch <;>
      rcases hch with rfl | rfl <;> simp

/-- Witness for C14: in `poorEventState` (cash 1, `backlash` pending) the button of
choice 0 (cost 2) is disabled and the state stays as it is; choice 1 (cost 0) sets
the revenue multiplier to 0.8 and clears the event. -/
theorem event_choice_applied_once_witness :
    clickEventChoice poorEventState 0 = poorEventState ∧
    (clickEventChoice poorEventState 1).pendingEvent = none ∧
    (clickEventChoice poorEventState 1).revenueMultiplier = 0.8 ∧
    (clickEventChoice poorEventState 1).cash = 1 := by
  have h0 := (event_choice_applied_once poorEventState triggerableEvents[0] 0
    ⟨2, Effect.nothing⟩ rfl rfl).2.1 (by norm_num [poorEventState])
  have h1 := (event_choice_applied_once poorEventState triggerableEvents[0] 1
    ⟨0, Effect.setRevenueMultiplier 0.8⟩ rfl rfl).1 (by norm_num [poorEventState])
  refine ⟨h0.1, ?_, ?_, ?_⟩
  · rw [h1.1]
  · rw [h1.1]; rfl
  · rw [h1.1]; norm_num [applyEffect, poorEventState]

theorem advanceQuarter_nextDoubletId (s : State) (rng : Nat → ℚ) :
    (advanceQuarter s rng).1.nextDoubletId = s.nextDoubletId := by
  by_cases hb : (s.gameOver || s.pendingEvent.isSome) = true
  · rw [advanceQuarter_blocked s rng hb]
  · obtain ⟨hg, hp⟩ := (not_blocked_iff s).1 (by simpa using hb)
    have h1 := (competitorAction_fields s (checkForEvents s s rng 0).1 rng
      (checkForEvents s s rng 0).2).2.2.2.2.2.2.2.1
    have h2 := (checkForEvents_fields s s rng 0).2.2.2.2.2.2.2.1
    simp only at h1 h2
    simp only [advanceQuarter, hg, hp, Option.isSome_none, Bool.or_self,
      Bool.false_eq_true, if_false]
    split_ifs <;> exact h1.trans h2

theorem firing_fourth_quarter (s : State) (rng : Nat → ℚ)
    (hg : s.gameOver = false) (hp : s.pendingEvent = none) (hq : s.quarter = 3) :
    firing s rng =
      effectPass (checkConstructionComplete s (effectPass (advanceQuarter s rng).1)) := by
  simp only [firing, hg, hp, hq, Option.isSome_none, Bool.or_self, Bool.false_eq_true,
    if_false, if_true]

theorem no_construction_rest (t : State)
    (h : (t.sites.filter fun z => z.underConstruction) = []) :
    (t.sites.filter (completes t)).isEmpty = true := by
  have := filter_completes_le t t.sites
  rw [h] at this
  simp only [List.length_nil, Nat.le_zero, List.length_eq_zero] at this
  rw [this]; rfl

theorem archiveLostState_sites :
    archiveLostState.sites =
      { mkSite (fun _ => 0) 0 "A" "#e74c3c" with
        secured := true, underConstruction := true,
        constructionCompleteYear := some 2027, plannedFlowRate := some 50 } ::
      (archiveLostState.sites.drop 1) ∧
    (archiveLostState.sites.drop 1).filter (fun z => z.underConstruction) = [] := by
  constructor <;>
  norm_num [archiveLostState, yearEndState, initialState, generateSites, mkSite, siteNames,
    siteColors, List.enum, List.enumFrom, List.filter]

theorem competitorSites_filter_completes (rng : Nat → ℚ) (t : State) (l : List Site) :
    ∀ i, (competitorSites rng i l).1.filter (completes t) = l.filter (completes t) := by
  induction l with
  | nil => intro i; simp [competitorSites]
  | cons x xs ih =>
    intro i
    unfold competitorSites
    split_ifs with h1 h2
    · have hu : x.underConstruction = false := by
        simp only [takeable, Bool.and_eq_true, Bool.not_eq_true'] at h1; exact h1.2
      simp [List.filter_cons, completes, hu, ih]
    · simp [List.filter_cons, ih]
    · simp [List.filter_cons, ih]

theorem rest_after_pass (snap cur : State)
    (hd : (snap.sites.filter (completes snap)).isEmpty = false)
    (hall : (snap.sites.filter fun z => z.underConstruction).length
      = (snap.sites.filter (completes snap)).length) :
    ((checkConstructionComplete snap cur).sites.filter
      (completes (checkConstructionComplete snap cur))).isEmpty = true := by
  apply no_construction_rest
  rw [checkConstructionComplete_sites_of_done snap cur hd]
  have := completed_underConstruction snap snap.sites
  rw [← List.length_eq_zero]
  omega

theorem firing_with_two_passes (s : State) (rng : Nat → ℚ)
    (hg : s.gameOver = false) (hp : s.pendingEvent = none) (hq : s.quarter = 3)
    (hy : 2025 ≤ s.year)
    (hd1 : ((advanceQuarter s rng).1.sites.filter
      (completes (advanceQuarter s rng).1)).isEmpty = false)
    (hall1 : ((advanceQuarter s rng).1.sites.filter fun z => z.underConstruction).length
      = ((advanceQuarter s rng).1.sites.filter (completes (advanceQuarter s rng).1)).length)
    (hd : (s.sites.filter (completes s)).isEmpty = false)
    (hall : (s.sites.filter fun z => z.underConstruction).length
      = (s.sites.filter (completes s)).length) :
    firing s rng =
      checkConstructionComplete s
        (checkConstructionComplete (advanceQuarter s rng).1 (advanceQuarter s rng).1) := by
  have hqy := advanceQuarter_quarter s rng hg hp
  rw [if_pos hq, if_pos hq] at hqy
  have h1 : effectPass (advanceQuarter s rng).1 =
      checkConstructionComplete (advanceQuarter s rng).1 (advanceQuarter s rng).1 := by
    rw [effectPass, effectLoop_step _ _ hqy.1 (by rw [hqy.2]; omega) hd1]
    exact effectLoop_rest _ _ (rest_after_pass _ _ hd1 hall1)
  rw [firing_fourth_quarter s rng hg hp hq, h1, effectPass]
  exact effectLoop_rest _ _ (rest_after_pass _ _ hd hall)

theorem filter_completes_archiveLostState (t : State) :
    archiveLostState.sites.filter (completes t) =
      if completes t { mkSite (fun _ => 0) 0 "A" "#e74c3c" with
          secured := true, underConstruction := true,
          constructionCompleteYear := some 2027, plannedFlowRate := some 50 }
      then [{ mkSite (fun _ => 0) 0 "A" "#e74c3c" with
          secured := true, underConstruction := true,
          constructionCompleteYear := some 2027, plannedFlowRate := some 50 }]
      else [] := by
  have h := archiveLostState_sites
  have htl : (archiveLostState.sites.drop 1).filter (completes t) = [] := by
    have := filter_completes_le t (archiveLostState.sites.drop 1)
    rw [h.2] at this
    simpa using this
  rw [h.1, List.filter_cons]
  simp only [List.drop_succ_cons, List.drop_zero] at htl ⊢
  rw [htl]

theorem archiveLostState_underConstruction :
    (archiveLostState.sites.filter fun z => z.underConstruction).length = 1 := by
  have h := archiveLostState_sites
  rw [h.1, List.filter_cons]
  simp only [List.drop_succ_cons, List.drop_zero] at h ⊢
  rw [h.2]
  rfl

/-! ## The year-end archive through a whole firing (C17) -/

theorem archiveLostState_tick_cash :
    (advanceQuarter archiveLostState takeRng).1.cash = 7.430692 := by
  have hg : archiveLostState.gameOver = false := rfl
  have hp : archiveLostState.pendingEvent = none := rfl
  rw [advanceQuarter_cash_eq_newCash _ _ hg hp, newCash_eq]
  have hh : holdingCosts archiveLostState = 0 := by
    have hc : holdingCosts archiveLostState =
        ((archiveLostState.sites.filter chargeable).length : ℚ) * (HOLDING_COST / 4) := rfl
    have h := archiveLostState_sites
    have htl : (archiveLostState.sites.drop 1).filter chargeable = [] := by
      norm_num [archiveLostState, yearEndState, initialState, generateSites, mkSite, siteNames,
        siteColors, List.enum, List.enumFrom, List.filter, chargeable]
    rw [hc, h.1, List.filter_cons]
    simp only [List.drop_succ_cons, List.drop_zero] at htl ⊢
    rw [htl]
    simp [chargeable]
  rw [hh]
  norm_num [archiveLostState, yearEndState, initialState, createInitialDoublet, claimRevenue,
    claimHeatOutput, claimCost, SEASONAL_MULTIPLIER]

theorem archiveLostState_firing :
    firing archiveLostState takeRng =
      checkConstructionComplete archiveLostState
        (checkConstructionComplete (advanceQuarter archiveLostState takeRng).1
          (advanceQuarter archiveLostState takeRng).1) ∧
    (advanceQuarter archiveLostState takeRng).1.sites.filter
        (completes (advanceQuarter archiveLostState takeRng).1)
      = [{ mkSite (fun _ => 0) 0 "A" "#e74c3c" with
          secured := true, underConstruction := true,
          constructionCompleteYear := some 2027, plannedFlowRate := some 50 }] ∧
    archiveLostState.sites.filter (completes archiveLostState)
      = [{ mkSite (fun _ => 0) 0 "A" "#e74c3c" with
          secured := true, underConstruction := true,
          constructionCompleteYear := some 2027, plannedFlowRate := some 50 }] := by
  have hg : archiveLostState.gameOver = false := rfl
  have hp : archiveLostState.pendingEvent = none := rfl
  have hq : archiveLostState.quarter = 3 := rfl
  have hy : archiveLostState.year = 2027 := rfl
  have hqy := advanceQuarter_quarter archiveLostState takeRng hg hp
  rw [if_pos hq, if_pos hq, hy] at hqy
  have hd1 : (advanceQuarter archiveLostState takeRng).1.sites.filter
        (completes (advanceQuarter archiveLostState takeRng).1)
      = [{ mkSite (fun _ => 0) 0 "A" "#e74c3c" with
          secured := true, underConstruction := true,
          constructionCompleteYear := some 2027, plannedFlowRate := some 50 }] := by
    rw [advanceQuarter_sites_eq _ _ hg hp, competitorSites_filter_completes,
      filter_completes_archiveLostState, if_pos]
    simp only [completes, hqy.2, archiveLostState_tick_cash]
    norm_num [mkSite]
  have hd : archiveLostState.sites.filter (completes archiveLostState)
      = [{ mkSite (fun _ => 0) 0 "A" "#e74c3c" with
          secured := true, underConstruction := true,
          constructionCompleteYear := some 2027, plannedFlowRate := some 50 }] := by
    rw [filter_completes_archiveLostState, if_pos]
    have hc : archiveLostState.cash = 5 := rfl
    simp only [completes, hy, hc]
    norm_num [mkSite]
  refine ⟨?_, hd1, hd⟩
  apply firing_with_two_passes _ _ hg hp hq (by rw [hy]; norm_num)
  · rw [hd1]; rfl
  · rw [hd1, advanceQuarter_sites_eq _ _ hg hp, competitorSites_underConstruction,
      archiveLostState_underConstruction]
    rfl
  · rw [hd]; rfl
  · rw [hd, archiveLostState_underConstruction]; rfl

/-- C17 (evaluation at the failing input). `archiveLostState` is in the fourth
quarter of 2027 with a construction that is due and affordable.  `advanceQuarter`
archives the year for the legacy doublet (temperature 104, histories of 6 entries,
accumulators 0).  The whole firing then runs the effect's pass and the pass
deferred at line 319, which writes back the doublets captured before the tick:
after the firing the year is 2028 and the quarter 0, but the legacy doublet has its
old temperature 105, its old histories of 5 entries and its accumulators 7 and 99
not reset.  The construction cost 3 has been charged twice (cash 7.430692 becomes
1.430692) and `nextDoubletId` is 3. -/
theorem year_end_archive_lost :
    archiveLostState.gameOver = false ∧ archiveLostState.pendingEvent = none ∧
    archiveLostState.quarter = 3 ∧
    archiveLostState.doublets.map archiveFigures = [(105, 5, 5, 5, 7, 99)] ∧
    (advanceQuarter archiveLostState takeRng).1.doublets.map archiveFigures
      = [(104, 6, 6, 6, 0, 0)] ∧
    (firing archiveLostState takeRng).doublets.map archiveFigures
      = [(105, 5, 5, 5, 7, 99), (80, 1, 0, 0, 0, 0)] ∧
    (tick archiveLostState takeRng).doublets.map archiveFigures
      = [(105, 5, 5, 5, 7, 99), (80, 1, 0, 0, 0, 0)] ∧
    (firing archiveLostState takeRng).year = 2028 ∧
    (firing archiveLostState takeRng).quarter = 0 ∧
    (firing archiveLostState takeRng).cash = 1.430692 ∧
    (firing archiveLostState takeRng).nextDoubletId = 3 := by
  have hg : archiveLostState.gameOver = false := rfl
  have hp : archiveLostState.pendingEvent = none := rfl
  have hq : archiveLostState.quarter = 3 := rfl
  have hy : archiveLostState.year = 2027 := rfl
  obtain ⟨hf, hd1, hd⟩ := archiveLostState_firing
  have hqy := advanceQuarter_quarter archiveLostState takeRng hg hp
  rw [if_pos hq, if_pos hq, hy] at hqy
  have hne1 : ((advanceQuarter archiveLostState takeRng).1.sites.filter
      (completes (advanceQuarter archiveLostState takeRng).1)).isEmpty = false := by
    rw [hd1]; rfl
  have hne : (archiveLostState.sites.filter (completes archiveLostState)).isEmpty = false := by
    rw [hd]; rfl
  have hdoub : archiveLostState.doublets.map archiveFigures = [(105, 5, 5, 5, 7, 99)] := by
    norm_num [archiveLostState, archiveFigures, createInitialDoublet]
  have hnew : archiveFigures (newDoublet archiveLostState
      { mkSite (fun _ => 0) 0 "A" "#e74c3c" with
        secured := true, underConstruction := true,
        constructionCompleteYear := some 2027, plannedFlowRate := some 50 })
      = (80, 1, 0, 0, 0, 0) := by
    norm_num [archiveFigures, newDoublet, mkSite]
  refine ⟨hg, hp, hq, hdoub, ?_, ?_, ?_, ?_, ?_, ?_, ?_⟩
  · rw [advanceQuarter_doublets_eq _ _ hg hp, if_pos hq]
    have ha : ({ createInitialDoublet with currentYearCash := 7, currentYearHeat := 99 }
        : Doublet).abandoned = false := rfl
    have hnd : newDoublets archiveLostState takeRng =
        [tickDoublet archiveLostState
          { createInitialDoublet with currentYearCash := 7, currentYearHeat := 99 }
          (takeRng (tempDrawStart archiveLostState takeRng))] := by
      have hdl : archiveLostState.doublets =
          [{ createInitialDoublet with currentYearCash := 7, currentYearHeat := 99 }] := rfl
      rw [newDoublets, hdl]
      have ha0 : createInitialDoublet.abandoned = false := rfl
      simp only [tickDoublets, ha0, Bool.false_eq_true, if_false]
    have hts : tempDrawStart archiveLostState takeRng = 12 := by
      rw [tempDrawStart_eq _ _ hp, scanEvents_takeRng]
      norm_num [archiveLostState, yearEndState, initialState, generateSites, mkSite, siteNames,
        siteColors, List.enum, List.enumFrom, List.filter, takeable]
    rw [hnd, hts]
    norm_num [archiveFigures, archiveDoublet, tickDoublet, getNewTemperature, slice15,
      createInitialDoublet, takeRng, REFERENCE_TEMP]
  · rw [hf, checkConstructionComplete_of_done _ _ hne, hd]
    simp only [List.map_append, List.map_cons, List.map_nil, hdoub, hnew]
    rfl
  · have ht : tick archiveLostState takeRng = checkConstructionComplete archiveLostState
        (advanceQuarter archiveLostState takeRng).1 := by
      simp only [tick, hg, hp, hq, Option.isSome_none, Bool.or_self, Bool.not_false,
        decide_True, Bool.and_self, if_true]
    rw [ht, checkConstructionComplete_of_done _ _ hne, hd]
    simp only [List.map_append, List.map_cons, List.map_nil, hdoub, hnew]
    rfl
  · rw [hf, checkConstructionComplete_of_done _ _ hne,
      checkConstructionComplete_of_done _ _ hne1]
    exact hqy.2
  · rw [hf, checkConstructionComplete_of_done _ _ hne,
      checkConstructionComplete_of_done _ _ hne1]
    exact hqy.1
  · rw [hf, checkConstructionComplete_of_done _ _ hne,
      checkConstructionComplete_of_done _ _ hne1, hd, hd1]
    simp only [List.foldl_cons, List.foldl_nil, archiveLostState_tick_cash]
    norm_num [mkSite]
  · rw [hf, checkConstructionComplete_of_done _ _ hne,
      checkConstructionComplete_of_done _ _ hne1, hd, hd1]
    simp only [List.length_cons, List.length_nil, advanceQuarter_nextDoubletId]
    rfl

/-! ## The whole firing: abandoned doublets and competitor takes -/

/-- With the effect's passes included the outcome for the competitor's take is
the same as for `tick`: site 1, taken by the tick, is not taken after the firing. -/
theorem firing_clears_taken :
    ((advanceQuarter archiveLostState takeRng).1.sites[1]?).map (fun x => x.takenByCompetitor)
      = some true ∧
    ((firing archiveLostState takeRng).sites[1]?).map (fun x => x.takenByCompetitor)
      = some false := by
  have hg : archiveLostState.gameOver = false := rfl
  have hp : archiveLostState.pendingEvent = none := rfl
  obtain ⟨hf, -, hd⟩ := archiveLostState_firing
  constructor
  · rw [advanceQuarter_sites_eq _ _ hg hp, scanEvents_takeRng]
    norm_num [archiveLostState, yearEndState, initialState, generateSites, mkSite, siteNames,
      siteColors, List.enum, List.enumFrom, competitorSites, takeable, takeRng,
      COMPETITOR_TAKE_CHANCE]
  · rw [hf, checkConstructionComplete_sites_of_done _ _ (by rw [hd]; rfl)]
    norm_num [archiveLostState, yearEndState, initialState, generateSites, mkSite, siteNames,
      siteColors, List.enum, List.enumFrom, completes, completedSite]

end GeothermalGame
